import Mathlib

/-!
Verification of the simulated UNIX-style filesystem (disk simulator).

This file is a shallow embedding, in Lean 4, of the core of the C++
sources: the block device (`disk_simulator.cpp`), the bitmap allocator
(`bitmap_manager.cpp`), the inode store (`inode_manager.cpp`), the
directory store (`directory_manager.cpp`), the path utilities
(`path_utils.cpp`, `path_manager.cpp`) and the file manager
(`file_manager.cpp`), followed by theorems about the embedded code.

Modelling conventions:
* A disk block is a byte store `Nat → Nat` (index ↦ byte value); `memcpy`
  on `char` buffers becomes a range update of such a function.  On-disk
  structures (`Inode`, `DirectoryEntry`, int arrays of indirect blocks)
  are laid out little-endian at the x86-64 offsets the compiled program
  uses (`sizeof(Inode) = 96`, `sizeof(DirectoryEntry) = 264`).
* C++ `int` / `time_t` values are modelled as unbounded `Int`; the
  program never brings them near overflow.  `/` and `%` on C++ ints are
  `Int.tdiv` / `Int.tmod`.
* Functions returning `bool` success plus out-parameters become
  functions returning the updated state paired with `Option`/`Bool`
  results; a `none`/`false` result is the `false` return of the C++.
* Wall-clock time (`time(nullptr)`) is passed as an explicit `now`
  parameter.
-/

namespace DiskFS

/-! ### Constants from `common.h` -/

def BLOCK_SIZE : Nat := 4096

def BITS_PER_BLOCK : Nat := BLOCK_SIZE * 8

def DIRECT_BLOCKS_COUNT : Nat := 10

def MAX_FILENAME_LENGTH : Nat := 256

def MAX_PATH_LENGTH : Nat := 1024

def MAGIC_NUMBER : Int := 0x4D494E44

def FILE_TYPE_REGULAR : Int := 0x8000

def FILE_TYPE_DIRECTORY : Int := 0x4000

def FILE_PERMISSION_READ : Int := 0x400

def FILE_PERMISSION_WRITE : Int := 0x200

def FILE_PERMISSION_EXECUTE : Int := 0x100

def OPEN_MODE_READ : Int := 0x01

def OPEN_MODE_WRITE : Int := 0x02

def OPEN_MODE_CREATE : Int := 0x04

def OPEN_MODE_APPEND : Int := 0x08

/-! ### Byte stores

A block buffer is a function from byte index to byte value.  `readBytes`
is `memcpy` out of the buffer, `writeBytes` is `memcpy` into it. -/

def Block : Type := Nat → Nat

def zeroBlock : Block := fun _ => 0

def readBytes (b : Block) (off len : Nat) : List Nat :=
  (List.range len).map (fun i => b (off + i))

def writeBytes (b : Block) (off : Nat) (src : List Nat) : Block :=
  fun i => if off ≤ i ∧ i < off + src.length then src.getD (i - off) 0 else b i

/-! ### Little-endian integers

`natLE w n` is the `w`-byte little-endian representation of `n` (mod
`256^w`); `leNat` reassembles it.  `encInt`/`decInt` add the two's
complement view used for the C++ `int` (w = 4) and `time_t` (w = 8)
fields that `memcpy` lays down in the image. -/

def natLE : Nat → Nat → List Nat
  | 0, _ => []
  | w + 1, n => (n % 256) :: natLE w (n / 256)

def leNat : List Nat → Nat
  | [] => 0
  | b :: bs => b + 256 * leNat bs

def encInt (w : Nat) (v : Int) : List Nat :=
  natLE w (v.emod (2 ^ (8 * w))).toNat

def decInt (w : Nat) (bs : List Nat) : Int :=
  let u := leNat (bs.take w)
  if u < 2 ^ (8 * w - 1) then (u : Int) else (u : Int) - 2 ^ (8 * w)

/-- Bounds under which a `w`-byte two's complement round trip is exact. -/
def IntFits (w : Nat) (v : Int) : Prop :=
  -(2 ^ (8 * w - 1)) ≤ v ∧ v < 2 ^ (8 * w - 1)

/-! ### The block device (`disk_simulator.cpp`)

Only the open-disk, in-core view is modelled: a total block count and
the current content of every block.  `read_block`/`write_block` validate
the block number against `total_blocks` exactly as `is_ready_for_io`
does; an out-of-range number is the I/O failure path. -/

structure Disk where
  total_blocks : Int
  blocks : Nat → Block

def Disk.read_block (d : Disk) (n : Int) : Option Block :=
  if 0 ≤ n ∧ n < d.total_blocks then some (d.blocks n.toNat) else none

def Disk.write_block (d : Disk) (n : Int) (buf : Block) : Option Disk :=
  if 0 ≤ n ∧ n < d.total_blocks then
    some { d with blocks := fun m => if m = n.toNat then buf else d.blocks m }
  else none

/-! ### The bitmap allocator (`bitmap_manager.cpp`)

`bitmap_data` is the byte array (`nullptr` modelled by `inited =
false`), bit `i` of the map is bit `i % 8` of byte `i / 8`. -/

structure BitmapManager where
  bitmap_data : Nat → Nat
  inited : Bool
  bitmap_size : Nat
  total_bits : Int
  free_bits_count : Int
  start_block : Int
  block_count : Int

/-- The constructor `BitmapManager(int size)` (allocation succeeds). -/
def BitmapManager.construct (size : Int) : BitmapManager :=
  if 0 < size then
    { bitmap_data := fun _ => 0
      inited := true
      bitmap_size := ((size.toNat + 7) / 8)
      total_bits := size
      free_bits_count := size
      start_block := 0
      block_count := 0 }
  else
    { bitmap_data := fun _ => 0
      inited := false
      bitmap_size := 0
      total_bits := size
      free_bits_count := size
      start_block := 0
      block_count := 0 }

def BitmapManager.check_inited (bm : BitmapManager) : Bool :=
  bm.inited && decide (0 < bm.bitmap_size)

def BitmapManager.is_valid_bit (bm : BitmapManager) (bit : Int) : Bool :=
  decide (0 ≤ bit) && decide (bit < bm.total_bits)

/-- `(bitmap_data[bit/8] & (1 << bit%8)) != 0` on a `Nat` index. -/
def BitmapManager.getBit (bm : BitmapManager) (bit : Nat) : Bool :=
  (bm.bitmap_data (bit / 8)).testBit (bit % 8)

def BitmapManager.set_bit (bm : BitmapManager) (bit : Int) : BitmapManager :=
  if bm.is_valid_bit bit then
    { bm with bitmap_data := fun j =>
        if j = bit.toNat / 8 then bm.bitmap_data j ||| 2 ^ (bit.toNat % 8)
        else bm.bitmap_data j }
  else bm

def BitmapManager.clear_bit (bm : BitmapManager) (bit : Int) : BitmapManager :=
  if bm.is_valid_bit bit then
    { bm with bitmap_data := fun j =>
        if j = bit.toNat / 8 then (bm.bitmap_data j) &&& (255 - 2 ^ (bit.toNat % 8))
        else bm.bitmap_data j }
  else bm

/-- `find_free_bit`: first-fit scan from bit 0, `-1` when the cached
counter is zero or nothing is found. -/
def BitmapManager.find_free_bit (bm : BitmapManager) : Int :=
  if bm.free_bits_count = 0 ∨ bm.inited = false then -1
  else
    match (List.range bm.total_bits.toNat).find? (fun b => ! bm.getBit b) with
    | some b => (b : Int)
    | none => -1

def BitmapManager.is_allocated (bm : BitmapManager) (bit : Int) : Bool :=
  if bm.is_valid_bit bit then bm.getBit bit.toNat else false

/-- `allocate_bit`: returns the updated state and the allocated bit
(`none` is the `false` return). -/
def BitmapManager.allocate_bit (bm : BitmapManager) : BitmapManager × Option Int :=
  if bm.check_inited = false then (bm, none)
  else
    let bit := bm.find_free_bit
    if bit = -1 then (bm, none)
    else ({ bm.set_bit bit with free_bits_count := bm.free_bits_count - 1 }, some bit)

/-- `free_bit`: only clears (and counts) a bit that was allocated. -/
def BitmapManager.free_bit (bm : BitmapManager) (bit : Int) : BitmapManager × Bool :=
  if bm.check_inited = false ∨ bm.is_valid_bit bit = false then (bm, false)
  else
    if bm.getBit bit.toNat then
      ({ bm.clear_bit bit with free_bits_count := bm.free_bits_count + 1 }, true)
    else (bm, true)

def BitmapManager.clear_all (bm : BitmapManager) : BitmapManager :=
  if bm.check_inited then
    { bm with bitmap_data := fun _ => 0, free_bits_count := bm.total_bits }
  else bm

/-- `recalculate_free_bits`: full rescan of the array. -/
def BitmapManager.recalculate_free_bits (bm : BitmapManager) : BitmapManager :=
  if bm.inited = false ∨ bm.total_bits ≤ 0 then { bm with free_bits_count := 0 }
  else
    { bm with free_bits_count :=
        ((List.range bm.total_bits.toNat).countP (fun b => ! bm.getBit b) : Int) }

/-- The copy loop of `load_from_disk`: block `start+i` is read (a failed
read aborts with the bytes copied so far kept), then
`min BLOCK_SIZE remaining` bytes go into the array at `copied`. -/
def BitmapManager.loadLoop (bm : BitmapManager) (d : Disk) (start : Int) :
    Nat → Nat → Nat → BitmapManager × Bool
  | 0, _, _ => (bm, true)
  | i + 1, copied, remaining =>
    match d.read_block start with
    | none => (bm, false)
    | some buf =>
      let c := min BLOCK_SIZE remaining
      if c = 0 then (bm, true)
      else
        let bm' := { bm with bitmap_data := writeBytes bm.bitmap_data copied (readBytes buf 0 c) }
        bm'.loadLoop d (start + 1) i (copied + c) (remaining - c)

def BitmapManager.load_from_disk (bm : BitmapManager) (d : Disk)
    (start_block_num num_blocks : Int) : BitmapManager × Bool :=
  if bm.check_inited = false then (bm, false)
  else
    match ({ bm with start_block := start_block_num, block_count := num_blocks }
        : BitmapManager).loadLoop d start_block_num num_blocks.toNat 0 bm.bitmap_size with
    | (bm', false) => (bm', false)
    | (bm', true) => (bm'.recalculate_free_bits, true)

/-- The write loop of `save_to_disk`: each block is a zeroed buffer with
the next `min BLOCK_SIZE remaining` bytes of the array copied in. -/
def BitmapManager.saveLoop (bm : BitmapManager) (d : Disk) (start : Int) :
    Nat → Nat → Nat → Option Disk
  | 0, _, _ => some d
  | i + 1, copied, remaining =>
    let c := min BLOCK_SIZE remaining
    let buf := if 0 < c then writeBytes zeroBlock 0 (readBytes bm.bitmap_data copied c)
               else zeroBlock
    match d.write_block start buf with
    | none => none
    | some d' => bm.saveLoop d' (start + 1) i (copied + c) (remaining - c)

def BitmapManager.save_to_disk (bm : BitmapManager) (d : Disk)
    (start_block_num num_blocks : Int) : BitmapManager × Option Disk :=
  if bm.check_inited = false then (bm, none)
  else
    (({ bm with start_block := start_block_num, block_count := num_blocks } : BitmapManager),
     ({ bm with start_block := start_block_num, block_count := num_blocks }
        : BitmapManager).saveLoop d start_block_num num_blocks.toNat 0 bm.bitmap_size)

def BitmapManager.get_total_bits (bm : BitmapManager) : Int := bm.total_bits

def BitmapManager.get_free_bits (bm : BitmapManager) : Int := bm.free_bits_count

def BitmapManager.get_used_bits (bm : BitmapManager) : Int :=
  bm.total_bits - bm.free_bits_count

/-- The number of zero (free) bits actually stored in the array. -/
def BitmapManager.countFreeBits (bm : BitmapManager) : Nat :=
  (List.range bm.total_bits.toNat).countP (fun b => ! bm.getBit b)

/-- The cached counter agrees with the stored array (and the capacity is
the nonnegative number the manager was built with). -/
def BitmapManager.Consistent (bm : BitmapManager) : Prop :=
  0 ≤ bm.total_bits ∧ bm.free_bits_count = (bm.countFreeBits : Int)

/-! ### Inodes (`common.h`)

The compiled struct layout on x86-64: `mode` at 0, `owner_id` at 4,
`group_id` at 8, `size` at 12, the three `time_t` fields at 16/24/32,
`link_count` at 40, `direct_blocks[10]` at 44, `indirect_block` at 84,
`double_indirect_block` at 88, padding to `sizeof(Inode) = 96`. -/

structure Inode where
  mode : Int
  owner_id : Int
  group_id : Int
  size : Int
  access_time : Int
  modification_time : Int
  creation_time : Int
  link_count : Int
  direct_blocks : List Int
  indirect_block : Int
  double_indirect_block : Int
  deriving DecidableEq, Repr

def sizeofInode : Nat := 96

def inodesPerBlock : Nat := BLOCK_SIZE / sizeofInode

/-- The byte image `memcpy` lays down for an inode (padding as zero). -/
def encodeInode (I : Inode) : List Nat :=
  encInt 4 I.mode ++ encInt 4 I.owner_id ++ encInt 4 I.group_id ++ encInt 4 I.size ++
  encInt 8 I.access_time ++ encInt 8 I.modification_time ++ encInt 8 I.creation_time ++
  encInt 4 I.link_count ++
  ((I.direct_blocks.take 10 ++ List.replicate (10 - I.direct_blocks.length) 0).map
    (encInt 4)).flatten ++
  encInt 4 I.indirect_block ++ encInt 4 I.double_indirect_block ++ [0, 0, 0, 0]

/-- The inode `memcpy` reads back out of a 96-byte image. -/
def decodeInode (bs : List Nat) : Inode :=
  { mode := decInt 4 bs
    owner_id := decInt 4 (bs.drop 4)
    group_id := decInt 4 (bs.drop 8)
    size := decInt 4 (bs.drop 12)
    access_time := decInt 8 (bs.drop 16)
    modification_time := decInt 8 (bs.drop 24)
    creation_time := decInt 8 (bs.drop 32)
    link_count := decInt 4 (bs.drop 40)
    direct_blocks := (List.range 10).map (fun i => decInt 4 (bs.drop (44 + 4 * i)))
    indirect_block := decInt 4 (bs.drop 84)
    double_indirect_block := decInt 4 (bs.drop 88) }

/-- Field bounds of the C++ struct: every `int` field fits 32 bits,
every `time_t` fits 64, and there are exactly ten direct pointers. -/
def InodeWF (I : Inode) : Prop :=
  IntFits 4 I.mode ∧ IntFits 4 I.owner_id ∧ IntFits 4 I.group_id ∧ IntFits 4 I.size ∧
  IntFits 8 I.access_time ∧ IntFits 8 I.modification_time ∧ IntFits 8 I.creation_time ∧
  IntFits 4 I.link_count ∧ I.direct_blocks.length = 10 ∧
  (∀ b ∈ I.direct_blocks, IntFits 4 b) ∧
  IntFits 4 I.indirect_block ∧ IntFits 4 I.double_indirect_block

/-! ### Disk layout (`common.h`) -/

structure DiskLayout where
  superblock_start : Int
  superblock_blocks : Int
  inode_bitmap_start : Int
  inode_bitmap_blocks : Int
  data_bitmap_start : Int
  data_bitmap_blocks : Int
  inode_table_start : Int
  inode_table_blocks : Int
  data_blocks_start : Int
  data_blocks_count : Int
  deriving Repr

/-- `DiskSimulator::calculate_layout` for a given total block count. -/
def calculate_layout (total_blocks : Int) : DiskLayout :=
  let ipb : Int := (inodesPerBlock : Int)
  let inode_count0 := ((total_blocks.tdiv 10 + ipb - 1).tdiv ipb) * ipb
  let inode_count := if inode_count0 = 0 ∧ 10 < total_blocks then ipb else inode_count0
  let inode_table_blocks := inode_count.tdiv ipb
  let inode_table_start : Int := 1
  let inode_bitmap_blocks := (inode_count + (BITS_PER_BLOCK : Int) - 1).tdiv (BITS_PER_BLOCK : Int)
  let inode_bitmap_start := inode_table_start + inode_table_blocks
  let data_bitmap_blocks := (total_blocks + (BITS_PER_BLOCK : Int) - 1).tdiv (BITS_PER_BLOCK : Int)
  let data_bitmap_start := inode_bitmap_start + inode_bitmap_blocks
  let data_blocks_start := data_bitmap_start + data_bitmap_blocks
  { superblock_start := 0
    superblock_blocks := 1
    inode_bitmap_start := inode_bitmap_start
    inode_bitmap_blocks := inode_bitmap_blocks
    data_bitmap_start := data_bitmap_start
    data_bitmap_blocks := data_bitmap_blocks
    inode_table_start := inode_table_start
    inode_table_blocks := inode_table_blocks
    data_blocks_start := data_blocks_start
    data_blocks_count := if data_blocks_start < total_blocks then total_blocks - data_blocks_start else 0 }

/-! ### The inode store (`inode_manager.cpp`) -/

structure InodeManager where
  layout : DiskLayout
  inode_bitmap : BitmapManager
  data_bitmap : BitmapManager
  inited : Bool

def InodeManager.check_inited (im : InodeManager) : Bool := im.inited

def InodeManager.get_total_inodes (im : InodeManager) : Int :=
  if im.inited then im.inode_bitmap.get_total_bits else 0

def InodeManager.get_free_inodes (im : InodeManager) : Int :=
  if im.inited then im.inode_bitmap.get_free_bits else 0

def InodeManager.get_free_data_blocks (im : InodeManager) : Int :=
  if im.inited then im.data_bitmap.get_free_bits else 0

def InodeManager.is_inode_allocated (im : InodeManager) (n : Int) : Bool :=
  if im.inited then im.inode_bitmap.is_allocated n else false

/-- `load_bitmaps` (short-circuit `&&`). -/
def InodeManager.load_bitmaps (im : InodeManager) (d : Disk) : InodeManager × Bool :=
  match im.inode_bitmap.load_from_disk d im.layout.inode_bitmap_start im.layout.inode_bitmap_blocks with
  | (ib, false) => ({ im with inode_bitmap := ib }, false)
  | (ib, true) =>
    match im.data_bitmap.load_from_disk d im.layout.data_bitmap_start im.layout.data_bitmap_blocks with
    | (db, ok) => ({ im with inode_bitmap := ib, data_bitmap := db }, ok)

/-- `InodeManager::initialize`: fresh bitmaps sized from the layout,
then both loaded from disk. -/
def InodeManager.init (im : InodeManager) (layout : DiskLayout) (d : Disk) :
    InodeManager × Bool :=
  let total_inodes := layout.inode_table_blocks * (inodesPerBlock : Int)
  let total_data_blocks := layout.data_blocks_count
  let im := { im with layout := layout
                      inode_bitmap := BitmapManager.construct total_inodes
                      data_bitmap := BitmapManager.construct total_data_blocks }
  match im.load_bitmaps d with
  | (im', false) => (im', false)
  | (im', true) => ({ im' with inited := true }, true)

def InodeManager.save_inode_bitmap (im : InodeManager) (d : Disk) :
    InodeManager × Option Disk :=
  match im.inode_bitmap.save_to_disk d im.layout.inode_bitmap_start im.layout.inode_bitmap_blocks with
  | (ib, r) => ({ im with inode_bitmap := ib }, r)

def InodeManager.save_data_bitmap (im : InodeManager) (d : Disk) :
    InodeManager × Option Disk :=
  match im.data_bitmap.save_to_disk d im.layout.data_bitmap_start im.layout.data_bitmap_blocks with
  | (db, r) => ({ im with data_bitmap := db }, r)

/-- `get_inode_position`: table block number and byte offset in it. -/
def InodeManager.get_inode_position (im : InodeManager) (n : Int) : Option (Int × Int) :=
  if n < 0 ∨ im.get_total_inodes ≤ n then none
  else some (im.layout.inode_table_start + n.tdiv (inodesPerBlock : Int),
             n.tmod (inodesPerBlock : Int) * (sizeofInode : Int))

def InodeManager.read_inode (im : InodeManager) (d : Disk) (n : Int) : Option Inode :=
  if im.check_inited = false then none
  else
    match im.get_inode_position n with
    | none => none
    | some (bn, off) =>
      match d.read_block bn with
      | none => none
      | some buf => some (decodeInode (readBytes buf off.toNat sizeofInode))

/-- `write_inode` is read-modify-write on the whole table block. -/
def InodeManager.write_inode (im : InodeManager) (d : Disk) (n : Int) (I : Inode) :
    Option Disk :=
  if im.check_inited = false then none
  else
    match im.get_inode_position n with
    | none => none
    | some (bn, off) =>
      match d.read_block bn with
      | none => none
      | some buf => d.write_block bn (writeBytes buf off.toNat (encodeInode I))

/-- `InodeManager::initialize_new_inode`. -/
def init_new_inode (now : Int) : Inode :=
  { mode := 0, owner_id := 0, group_id := 0, size := 0
    access_time := now, modification_time := now, creation_time := now
    link_count := 1
    direct_blocks := List.replicate 10 0
    indirect_block := -1, double_indirect_block := -1 }

/-! ### Indirect blocks

An indirect block is an array of `BLOCK_SIZE / sizeof(int) = 1024`
little-endian ints, implicitly terminated by the first zero entry. -/

def blocksInIndirect : Nat := BLOCK_SIZE / 4

/-- `read_indirect_block`: the zero-terminated prefix of the int array. -/
def read_indirect_block (d : Disk) (block_num : Int) : Option (List Int) :=
  match d.read_block block_num with
  | none => none
  | some buf =>
    some (((List.range blocksInIndirect).map
      (fun i => decInt 4 (readBytes buf (4 * i) 4))).takeWhile (fun x => x != 0))

/-- The zeroed buffer with the first `min len 1024` list entries written,
as `write_indirect_block` builds it. -/
def intsBlock (l : List Int) : Block :=
  fun j =>
    if j / 4 < min l.length blocksInIndirect then (encInt 4 (l.getD (j / 4) 0)).getD (j % 4) 0
    else 0

def write_indirect_block (d : Disk) (block_num : Int) (l : List Int) : Option Disk :=
  d.write_block block_num (intsBlock l)

/-! ### Data-block walks and frees (`inode_manager.cpp`) -/

/-- The inner loop of `get_data_blocks` over the double-indirect block's
pointer list: every inner indirect block must read successfully. -/
def collectInner (d : Disk) : List Int → Option (List Int)
  | [] => some []
  | p :: rest =>
    match read_indirect_block d p with
    | none => none
    | some l =>
      match collectInner d rest with
      | none => none
      | some r => some (l ++ r)

/-- `get_data_blocks`: non-zero direct pointers, then the single-indirect
list, then the contents of every inner indirect block of the
double-indirect tier, in file-byte order. -/
def InodeManager.get_data_blocks (im : InodeManager) (d : Disk) (n : Int) :
    Option (List Int) :=
  if im.check_inited = false then none
  else
    match im.read_inode d n with
    | none => none
    | some inode =>
      let direct := inode.direct_blocks.filter (fun p => p != 0)
      match (if inode.indirect_block ≠ -1 then read_indirect_block d inode.indirect_block
             else some []) with
      | none => none
      | some ind =>
        if inode.double_indirect_block ≠ -1 then
          match read_indirect_block d inode.double_indirect_block with
          | none => none
          | some ptrs =>
            match collectInner d ptrs with
            | none => none
            | some dbl => some (direct ++ ind ++ dbl)
        else some (direct ++ ind)

/-- Free every bit `x - data_blocks_start` for `x` in the list (results
of the individual `free_bit` calls are discarded, as in the source). -/
def freeList (bm : BitmapManager) (start : Int) (l : List Int) : BitmapManager :=
  l.foldl (fun b x => (b.free_bit (x - start)).1) bm

/-- `free_all_data_blocks_for_inode`: frees the direct blocks, the
single-indirect contents and the single-indirect block, then only the
double-indirect block itself (its inner indirect blocks and their data
blocks are left untouched, as the source comments note). -/
def InodeManager.free_all_data_blocks_for_inode (im : InodeManager) (d : Disk)
    (inode : Inode) : InodeManager × Inode :=
  let start := im.layout.data_blocks_start
  let db := inode.direct_blocks.foldl
    (fun b p => if p ≠ 0 then (b.free_bit (p - start)).1 else b) im.data_bitmap
  let inode := { inode with direct_blocks := inode.direct_blocks.map (fun _ => 0) }
  let (db, inode) :=
    if inode.indirect_block ≠ -1 then
      let db :=
        match read_indirect_block d inode.indirect_block with
        | some l => freeList db start l
        | none => db
      let db := (db.free_bit (inode.indirect_block - start)).1
      (db, { inode with indirect_block := -1 })
    else (db, inode)
  let (db, inode) :=
    if inode.double_indirect_block ≠ -1 then
      ((db.free_bit (inode.double_indirect_block - start)).1,
       { inode with double_indirect_block := -1 })
    else (db, inode)
  ({ im with data_bitmap := db }, inode)

/-- `free_data_blocks`: free everything, zero the size, write the inode
back, persist the data bitmap. -/
def InodeManager.free_data_blocks (im : InodeManager) (d : Disk) (n : Int) :
    InodeManager × Disk × Bool :=
  if im.check_inited = false then (im, d, false)
  else
    match im.read_inode d n with
    | none => (im, d, false)
    | some inode =>
      let p := im.free_all_data_blocks_for_inode d inode
      let inode2 := { p.2 with size := 0 }
      match p.1.write_inode d n inode2 with
      | none => (p.1, d, false)
      | some d1 =>
        match p.1.save_data_bitmap d1 with
        | (im2, none) => (im2, d1, false)
        | (im2, some d2) => (im2, d2, true)

/-! ### Data-block allocation (`inode_manager.cpp`) -/

/-- `allocate_indirect_block`: take a data bit, zero the block.  On a
failed zeroing write the reserved bit is (faithfully) not rolled back. -/
def InodeManager.allocate_indirect_block (im : InodeManager) (d : Disk) :
    InodeManager × Disk × Option Int :=
  match im.data_bitmap.allocate_bit with
  | (db, none) => ({ im with data_bitmap := db }, d, none)
  | (db, some bit) =>
    let im := { im with data_bitmap := db }
    let block_num := im.layout.data_blocks_start + bit
    match d.write_block block_num zeroBlock with
    | none => (im, d, none)
    | some d' => (im, d', some block_num)

def InodeManager.free_indirect_block (im : InodeManager) (block_num : Int) :
    InodeManager × Bool :=
  if block_num = -1 then (im, true)
  else
    match im.data_bitmap.free_bit (block_num - im.layout.data_blocks_start) with
    | (db, ok) => ({ im with data_bitmap := db }, ok)

def InodeManager.allocate_single_block (im : InodeManager) :
    InodeManager × Option Int :=
  match im.data_bitmap.allocate_bit with
  | (db, none) => ({ im with data_bitmap := db }, none)
  | (db, some bit) =>
    ({ im with data_bitmap := db }, some (im.layout.data_blocks_start + bit))

/-- `allocate_multiple_blocks`: first-fit one by one; a failure rolls
back every bit reserved in this call. -/
def InodeManager.allocMulti (im : InodeManager) :
    Nat → List Int → InodeManager × Option (List Int)
  | 0, acc => (im, some acc)
  | k + 1, acc =>
    match im.allocate_single_block with
    | (im', none) =>
      ({ im' with data_bitmap := freeList im'.data_bitmap im'.layout.data_blocks_start acc },
       none)
    | (im', some idx) => im'.allocMulti k (acc ++ [idx])

/-- One iteration chunk of `update_inode_block_pointers`' fill loop:
slot `i` of the combined block list goes to the direct array, the
single-indirect block, or the double-indirect tree. -/
def InodeManager.fillLoop (im : InodeManager) (d : Disk) (inode : Inode) :
    List Int → Nat → InodeManager × Disk × Inode × Bool
  | [], _ => (im, d, inode, true)
  | b :: rest, i =>
    if i < DIRECT_BLOCKS_COUNT then
      InodeManager.fillLoop im d
        { inode with direct_blocks := inode.direct_blocks.set i b } rest (i + 1)
    else
      let rel := i - DIRECT_BLOCKS_COUNT
      if rel < blocksInIndirect then
        let t :=
          if rel = 0 then
            if inode.indirect_block = -1 then
              match im.allocate_indirect_block d with
              | (im', d', none) => (im', d', inode, false)
              | (im', d', some blk) => (im', d', { inode with indirect_block := blk }, true)
            else (im, d, inode, true)
          else (im, d, inode, true)
        match t with
        | (im1, d1, inode1, false) => (im1, d1, inode1, false)
        | (im1, d1, inode1, true) =>
          let cur := if inode1.indirect_block ≠ -1 then
                       (read_indirect_block d1 inode1.indirect_block).getD []
                     else []
          match write_indirect_block d1 inode1.indirect_block (cur ++ [b]) with
          | none => (im1, d1, inode1, false)
          | some d2 => InodeManager.fillLoop im1 d2 inode1 rest (i + 1)
      else
        let t :=
          if inode.double_indirect_block = -1 then
            match im.allocate_indirect_block d with
            | (im', d', none) => (im', d', inode, false)
            | (im', d', some blk) =>
              (im', d', { inode with double_indirect_block := blk }, true)
          else (im, d, inode, true)
        match t with
        | (im1, d1, inode1, false) => (im1, d1, inode1, false)
        | (im1, d1, inode1, true) =>
          let drel := rel - blocksInIndirect
          let didx := drel / blocksInIndirect
          if blocksInIndirect ≤ didx then (im1, d1, inode1, false)
          else
            let ptrs := (read_indirect_block d1 inode1.double_indirect_block).getD []
            let target := if didx < ptrs.length then ptrs.getD didx 0 else 0
            if target = 0 then
              match im1.allocate_indirect_block d1 with
              | (im2, d2, none) => (im2, d2, inode1, false)
              | (im2, d2, some tgt) =>
                let ptrs2 := if ptrs.length ≤ didx then
                               ptrs ++ List.replicate (didx + 1 - ptrs.length) 0
                             else ptrs
                let ptrs3 := ptrs2.set didx tgt
                match write_indirect_block d2 inode1.double_indirect_block ptrs3 with
                | none => (im2, d2, inode1, false)
                | some d3 =>
                  let inner := (read_indirect_block d3 tgt).getD []
                  match write_indirect_block d3 tgt (inner ++ [b]) with
                  | none => (im2, d3, inode1, false)
                  | some d4 => InodeManager.fillLoop im2 d4 inode1 rest (i + 1)
            else
              let inner := (read_indirect_block d1 target).getD []
              match write_indirect_block d1 target (inner ++ [b]) with
              | none => (im1, d1, inode1, false)
              | some d2 => InodeManager.fillLoop im1 d2 inode1 rest (i + 1)

/-- `update_inode_block_pointers`: splice the new absolute block numbers
onto the existing list and rebuild the whole indirection tree. -/
def InodeManager.update_inode_block_pointers (im : InodeManager) (d : Disk)
    (inode_id : Int) (block_indices : List Int) (now : Int) :
    InodeManager × Disk × Bool :=
  match im.read_inode d inode_id with
  | none => (im, d, false)
  | some inode0 =>
    match im.get_data_blocks d inode_id with
    | none => (im, d, false)
    | some old =>
      let all_blocks := old ++ block_indices
      let inode1 := { inode0 with direct_blocks := List.replicate 10 0 }
      let p :=
        if inode1.indirect_block ≠ -1 then
          ((im.free_indirect_block inode1.indirect_block).1,
           { inode1 with indirect_block := -1 })
        else (im, inode1)
      match p.1.fillLoop d p.2 all_blocks 0 with
      | (im2, d2, _, false) => (im2, d2, false)
      | (im2, d2, inode3, true) =>
        let inode4 := { inode3 with modification_time := now }
        match im2.write_inode d2 inode_id inode4 with
        | none => (im2, d2, false)
        | some d3 => (im2, d3, true)

/-- `allocate_data_blocks`: reserve `block_count` bits, rebuild the
pointer tree, persist the data bitmap.  A failed rebuild rolls back the
bits reserved in this call. -/
def InodeManager.allocate_data_blocks (im : InodeManager) (d : Disk)
    (inode_num : Int) (block_count : Int) (now : Int) :
    InodeManager × Disk × Option (List Int) :=
  if im.check_inited = false ∨ block_count ≤ 0 then (im, d, none)
  else
    match im.allocMulti block_count.toNat [] with
    | (im1, none) => (im1, d, none)
    | (im1, some idxs) =>
      match im1.update_inode_block_pointers d inode_num idxs now with
      | (im2, d2, false) =>
        ({ im2 with data_bitmap :=
             freeList im2.data_bitmap im2.layout.data_blocks_start idxs }, d2, none)
      | (im2, d2, true) =>
        match im2.save_data_bitmap d2 with
        | (im3, none) => (im3, d2, none)
        | (im3, some d3) => (im3, d3, some idxs)

/-- `allocate_inode`: take a free inode bit, write the zero-initialized
inode, persist the inode bitmap; sub-step failures roll the bit back. -/
def InodeManager.allocate_inode (im : InodeManager) (d : Disk) (now : Int) :
    InodeManager × Disk × Option Int :=
  if im.check_inited = false then (im, d, none)
  else
    match im.inode_bitmap.allocate_bit with
    | (ib, none) => ({ im with inode_bitmap := ib }, d, none)
    | (ib, some n) =>
      let im1 := { im with inode_bitmap := ib }
      match im1.write_inode d n (init_new_inode now) with
      | none => ({ im1 with inode_bitmap := (im1.inode_bitmap.free_bit n).1 }, d, none)
      | some d1 =>
        match im1.save_inode_bitmap d1 with
        | (im2, none) => ({ im2 with inode_bitmap := (im2.inode_bitmap.free_bit n).1 }, d1, none)
        | (im2, some d2) => (im2, d2, some n)

/-- `free_inode`: free the data blocks, flip the inode bit, persist. -/
def InodeManager.free_inode (im : InodeManager) (d : Disk) (n : Int) :
    InodeManager × Disk × Bool :=
  if im.check_inited = false then (im, d, false)
  else if im.is_inode_allocated n = false then (im, d, false)
  else
    match im.free_data_blocks d n with
    | (im1, d1, false) => (im1, d1, false)
    | (im1, d1, true) =>
      let im2 := { im1 with inode_bitmap := (im1.inode_bitmap.free_bit n).1 }
      match im2.save_inode_bitmap d1 with
      | (im3, none) => (im3, d1, false)
      | (im3, some d2) => (im3, d2, true)

/-- `FileOperationsUtils::initialize_new_inode` with its declared
default arguments `mode = REGULAR|READ|WRITE`, `link_count = 1`. -/
def fu_init_new_inode (mode link_count now : Int) : Inode :=
  { mode := mode, owner_id := 0, group_id := 0, size := 0
    access_time := now, modification_time := now, creation_time := now
    link_count := link_count
    direct_blocks := List.replicate 10 0
    indirect_block := -1, double_indirect_block := -1 }

/-! ### Path utilities (`path_utils.cpp`), over `List Char` strings -/

def PathUtils.validate_path (p : List Char) : Bool :=
  !(p.isEmpty || decide (MAX_PATH_LENGTH < p.length) ||
    p.any (fun c => c == '\x00' || c == '\n' || c == '\r'))

/-- `extract_filename`: everything after the last `/` (the whole path
when there is no `/`). -/
def PathUtils.extract_filename (p : List Char) : List Char :=
  if PathUtils.validate_path p = false then []
  else (p.reverse.takeWhile (fun c => c != '/')).reverse

/-- `extract_directory`: everything before the last `/`; `.` when there
is no `/`; `/` when the last `/` is the first character. -/
def PathUtils.extract_directory (p : List Char) : List Char :=
  if PathUtils.validate_path p = false then []
  else if p.contains '/' = false then ['.']
  else
    let suffix := (p.reverse.takeWhile (fun c => c != '/')).length
    let lastSlash := p.length - suffix - 1
    if lastSlash = 0 then ['/'] else p.take lastSlash

def PathUtils.is_absolute_path (p : List Char) : Bool :=
  match p with
  | [] => false
  | c :: _ => c == '/'

/-- The `std::unique` pass of `normalize_path`: drop every `/` that
immediately follows a kept `/`. -/
def collapseSlashes : List Char → List Char
  | [] => []
  | [a] => [a]
  | a :: b :: rest =>
    if a = '/' ∧ b = '/' then collapseSlashes (a :: rest)
    else a :: collapseSlashes (b :: rest)
  termination_by l => l.length

/-- `normalize_path`: `\` → `/`, collapse runs of `/`, strip one
trailing `/` unless the string has length 1. -/
def PathUtils.normalize_path (p : List Char) : List Char :=
  if p = [] then []
  else
    let r := p.map (fun c => if c = '\\' then '/' else c)
    let u := collapseSlashes r
    if 1 < u.length ∧ u.getLast? = some '/' then u.dropLast else u

/-! ### Directory entries (`common.h`)

`sizeof(DirectoryEntry) = 264` on the compiled layout: `inode_number`
at 0, `name[256]` at 4, `name_length` at 260.  The in-memory `name`
field is the full 256-byte array. -/

structure DirectoryEntry where
  inode_number : Int
  name : List Nat
  name_length : Int
  deriving DecidableEq, Repr

def sizeofDirEntry : Nat := 264

def entriesPerBlock : Nat := BLOCK_SIZE / sizeofDirEntry

def strBytes (s : List Char) : List Nat := s.map (fun c => c.toNat % 256)

/-- The NUL-terminated prefix of a byte array (what `strcmp` sees). -/
def cstr (l : List Nat) : List Nat := l.takeWhile (fun b => b != 0)

/-- `strcmp(a, b) == 0` on byte arrays. -/
def strcmpEq (a b : List Nat) : Bool := cstr a == cstr b

/-- `strncmp(a, b, n) == 0` on byte arrays. -/
def strncmpEq (n : Nat) (a b : List Nat) : Bool :=
  cstr (a.take n) == cstr (b.take n)

def encodeDirEntry (e : DirectoryEntry) : List Nat :=
  encInt 4 e.inode_number ++
  (e.name.take 256 ++ List.replicate (256 - e.name.length) 0) ++
  encInt 4 e.name_length

def decodeDirEntry (bs : List Nat) : DirectoryEntry :=
  { inode_number := decInt 4 bs
    name := (bs.drop 4).take 256
    name_length := decInt 4 (bs.drop 260) }

/-- Build a `DirectoryEntry` the way the sources do: `memset` to zero,
`strncpy` at most `n` bytes of the name, explicit NUL, length `n`. -/
def mkDirEntry (inode_num : Int) (name : List Char) (n : Nat) : DirectoryEntry :=
  let copied := (cstr (strBytes name)).take n
  { inode_number := inode_num
    name := copied ++ List.replicate (256 - copied.length) 0
    name_length := (n : Int) }

/-! ### The path manager (`path_manager.cpp`) -/

def PathManager.get_parent_path (p : List Char) : List Char :=
  if p = ['/'] ∨ p = [] then ['/']
  else
    let p1 := if PathUtils.is_absolute_path p then p else '/' :: p
    let suffix := (p1.reverse.takeWhile (fun c => c != '/')).length
    let pos := p1.length - suffix - 1
    if pos = 0 then ['/'] else p1.take pos

def PathManager.get_basename (p : List Char) : List Char :=
  if p = ['/'] ∨ p = [] then []
  else
    let p1 := if PathUtils.is_absolute_path p then p else '/' :: p
    (p1.reverse.takeWhile (fun c => c != '/')).reverse

/-- `parse_path`: the non-empty `/`-separated components (relative paths
are rooted first). -/
def PathManager.parse_path (p : List Char) : Option (List (List Char)) :=
  if p = [] then none
  else if p = ['/'] then some []
  else
    let p1 := if PathUtils.is_absolute_path p then p else '/' :: p
    some (((p1.drop 1).splitOn '/').filter (fun c => !c.isEmpty))

/-- `load_directory_inode`: the inode must read and carry the directory
type bit. -/
def loadDirInode (im : InodeManager) (d : Disk) (n : Int) : Option Inode :=
  match im.read_inode d n with
  | none => none
  | some i => if i.mode.land FILE_TYPE_DIRECTORY ≠ 0 then some i else none

/-- The per-block scan of `find_inode_in_directory`: first slot with
`name_length > 0` and a `strcmp` match. -/
def findEntryInBlock (buf : Block) (name : List Nat) : Option Int :=
  (List.range entriesPerBlock).findSome? (fun i =>
    let e := decodeDirEntry (readBytes buf (sizeofDirEntry * i) sizeofDirEntry)
    if 0 < e.name_length ∧ strcmpEq e.name name then some e.inode_number else none)

def scanDirBlocks (d : Disk) (name : List Nat) : List Int → Int
  | [] => -1
  | b :: rest =>
    match d.read_block b with
    | none => -1
    | some buf =>
      match findEntryInBlock buf name with
      | some ino => ino
      | none => scanDirBlocks d name rest

def PathManager.find_inode_in_directory (im : InodeManager) (d : Disk)
    (parent : Int) (name : List Char) : Int :=
  match loadDirInode im d parent with
  | none => -1
  | some _ =>
    match im.get_data_blocks d parent with
    | none => -1
    | some blocks => scanDirBlocks d (strBytes name) blocks

/-- `find_inode`: walk the components from the root inode 0. -/
def PathManager.find_inode (im : InodeManager) (d : Disk) (p : List Char) : Int :=
  if p = ['/'] then 0
  else
    match PathManager.parse_path p with
    | none => -1
    | some comps =>
      comps.foldl (fun cur comp =>
        if cur = -1 then -1 else PathManager.find_inode_in_directory im d cur comp) 0

def PathManager.file_exists (im : InodeManager) (d : Disk) (p : List Char) : Bool :=
  PathManager.find_inode im d p != -1

/-- `PathManager::validate_and_parse_path`: filename and directory via
`PathUtils`, with `.` and the empty directory mapped to `/`
(`PathUtilsExtended::extract_filename_and_directory` is identical). -/
def PathManager.validate_and_parse_path (p : List Char) :
    Option (List Char × List Char) :=
  if PathUtils.validate_path p = false then none
  else
    let filename := PathUtils.extract_filename p
    let directory := PathUtils.extract_directory p
    let directory := if directory = ['.'] then ['/'] else directory
    let directory := if directory = [] then ['/'] else directory
    some (filename, directory)

/-! ### The directory store (`directory_manager.cpp`, and the identical
`FileSystem::read_directory` / `FileSystem::write_directory`) -/

def dummyDirEntry : DirectoryEntry := { inode_number := 0, name := [], name_length := 0 }

/-- All slots of one block, kept when `name_length > 0`. -/
def entriesOfBlock (buf : Block) : List DirectoryEntry :=
  ((List.range entriesPerBlock).map (fun i =>
    decodeDirEntry (readBytes buf (sizeofDirEntry * i) sizeofDirEntry))).filter
    (fun e => decide (0 < e.name_length))

def readDirBlocks (d : Disk) : List Int → Option (List DirectoryEntry)
  | [] => some []
  | b :: rest =>
    match d.read_block b with
    | none => none
    | some buf =>
      match readDirBlocks d rest with
      | none => none
      | some r => some (entriesOfBlock buf ++ r)

/-- `read_directory`: directory inode, then every used slot of every
data block, in block order. -/
def dirRead (im : InodeManager) (d : Disk) (n : Int) :
    Option (List DirectoryEntry) :=
  match im.read_inode d n with
  | none => none
  | some inode =>
    if inode.mode.land FILE_TYPE_DIRECTORY = 0 then none
    else if inode.size = 0 then some []
    else
      match im.get_data_blocks d n with
      | none => none
      | some blocks => readDirBlocks d blocks

/-- The zeroed block buffer holding up to `entriesPerBlock` packed
entries, as the write loop of `write_directory` builds it. -/
def buildDirBlock (es : List DirectoryEntry) : Block :=
  fun j =>
    if j / sizeofDirEntry < min es.length entriesPerBlock then
      (encodeDirEntry (es.getD (j / sizeofDirEntry) dummyDirEntry)).getD (j % sizeofDirEntry) 0
    else 0

/-- `BlockUtils::is_valid_block_index`: `uint32(b) < DISK_SIZE / BLOCK_SIZE`. -/
def is_valid_block_index (b : Int) : Bool :=
  decide (0 ≤ b) && decide (b < 25600)

def writeDirLoop (d : Disk) : List Int → List DirectoryEntry → Disk × Bool
  | [], _ => (d, true)
  | b :: rest, es =>
    if is_valid_block_index b = false then (d, false)
    else
      match d.write_block b (buildDirBlock (es.take entriesPerBlock)) with
      | none => (d, false)
      | some d' => writeDirLoop d' rest (es.drop entriesPerBlock)

/-- `write_directory`: grow the block list if needed, pack the entries,
then write back the inode that was read *before* the allocation (with
only `size` and `modification_time` updated), exactly as the source
does. -/
def dirWrite (im : InodeManager) (d : Disk) (n : Int)
    (entries : List DirectoryEntry) (now : Int) : InodeManager × Disk × Bool :=
  match im.read_inode d n with
  | none => (im, d, false)
  | some inode =>
    let required_size : Int := (entries.length : Int) * (sizeofDirEntry : Int)
    let required_blocks : Nat := (entries.length * sizeofDirEntry + BLOCK_SIZE - 1) / BLOCK_SIZE
    match im.get_data_blocks d n with
    | none => (im, d, false)
    | some current =>
      let step : InodeManager × Disk × Option (List Int) :=
        if current.length < required_blocks then
          match im.allocate_data_blocks d n ((required_blocks : Int) - (current.length : Int)) now with
          | (im1, d1, none) => (im1, d1, none)
          | (im1, d1, some _) =>
            match im1.get_data_blocks d1 n with
            | none => (im1, d1, none)
            | some cur2 => (im1, d1, some cur2)
        else (im, d, some current)
      match step with
      | (im1, d1, none) => (im1, d1, false)
      | (im1, d1, some cur) =>
        match writeDirLoop d1 cur entries with
        | (d2, false) => (im1, d2, false)
        | (d2, true) =>
          let inode2 := { inode with size := required_size, modification_time := now }
          match im1.write_inode d2 n inode2 with
          | none => (im1, d2, false)
          | some d3 => (im1, d3, true)

/-- `find_entry_index`: first entry whose name `strncmp`s equal. -/
def find_entry_index (entries : List DirectoryEntry) (name : List Nat) : Int :=
  match entries.findIdx? (fun e => strncmpEq MAX_FILENAME_LENGTH e.name name) with
  | some i => (i : Int)
  | none => -1

/-- `add_directory_entry`. -/
def dirAddEntry (im : InodeManager) (d : Disk) (dir_inode : Int)
    (name : List Char) (inode_num : Int) (now : Int) : InodeManager × Disk × Bool :=
  match dirRead im d dir_inode with
  | none => (im, d, false)
  | some entries =>
    if find_entry_index entries (strBytes name) ≠ -1 then (im, d, false)
    else
      let name_len := min name.length (MAX_FILENAME_LENGTH - 1)
      dirWrite im d dir_inode (entries ++ [mkDirEntry inode_num name name_len]) now

/-- `remove_directory_entry`. -/
def dirRemoveEntry (im : InodeManager) (d : Disk) (dir_inode : Int)
    (name : List Char) (now : Int) : InodeManager × Disk × Bool :=
  match dirRead im d dir_inode with
  | none => (im, d, false)
  | some entries =>
    match find_entry_index entries (strBytes name) with
    | Int.negSucc _ => (im, d, false)
    | Int.ofNat i => dirWrite im d dir_inode (entries.eraseIdx i) now

/-- `DirectoryManager::create_directory`. -/
def dirCreate (im : InodeManager) (d : Disk) (path : List Char) (now : Int) :
    InodeManager × Disk × Bool :=
  if PathManager.file_exists im d path then (im, d, false)
  else
    let parent_path := PathManager.get_parent_path path
    let basename := PathManager.get_basename path
    let parent := PathManager.find_inode im d parent_path
    if parent = -1 then (im, d, false)
    else
      match im.allocate_inode d now with
      | (im1, d1, none) => (im1, d1, false)
      | (im1, d1, some new_inode) =>
        let dmode := (FILE_TYPE_DIRECTORY.lor FILE_PERMISSION_READ).lor
          (FILE_PERMISSION_WRITE.lor FILE_PERMISSION_EXECUTE)
        match im1.write_inode d1 new_inode (fu_init_new_inode dmode 2 now) with
        | none =>
          match im1.free_inode d1 new_inode with
          | (im2, d2, _) => (im2, d2, false)
        | some d2 =>
          match im1.allocate_data_blocks d2 new_inode 1 now with
          | (im2, d3, none) =>
            match im2.free_inode d3 new_inode with
            | (im3, d4, _) => (im3, d4, false)
          | (im2, d3, some _) =>
            let dot := mkDirEntry new_inode ['.'] 1
            let dotdot := mkDirEntry parent ['.', '.'] 2
            match dirWrite im2 d3 new_inode [dot, dotdot] now with
            | (im3, d4, false) =>
              match im3.free_inode d4 new_inode with
              | (im4, d5, _) => (im4, d5, false)
            | (im3, d4, true) =>
              match dirAddEntry im3 d4 parent basename new_inode now with
              | (im4, d5, false) =>
                match im4.free_inode d5 new_inode with
                | (im5, d6, _) => (im5, d6, false)
              | (im4, d5, true) => (im4, d5, true)

/-- `DirectoryManager::list_directory`. -/
def dirList (im : InodeManager) (d : Disk) (path : List Char) :
    Option (List DirectoryEntry) :=
  let n := PathManager.find_inode im d path
  if n = -1 then none else dirRead im d n

/-! ### File data transfer (`file_operations_utils.cpp`) -/

/-- The copy loop of `read_data_from_blocks` from the start block on:
per block, `min (BLOCK_SIZE - so) rem` bytes. -/
def readChunks (d : Disk) : List Int → Nat → Nat → Option (List Nat)
  | [], _, _ => some []
  | b :: rest, so, rem =>
    if rem = 0 then some []
    else
      match d.read_block b with
      | none => none
      | some buf =>
        let c := min (BLOCK_SIZE - so) rem
        match readChunks d rest 0 (rem - c) with
        | none => none
        | some tail => some (readBytes buf so c ++ tail)

/-- `FileOperationsUtils::read_data_from_blocks`; succeeds exactly when
`bytes_read == size` at loop exit. -/
def read_data_from_blocks (d : Disk) (blocks : List Int) (offset size : Int) :
    Option (List Nat) :=
  if blocks = [] then none
  else
    let sb := (offset.tdiv (BLOCK_SIZE : Int)).toNat
    let so := (offset.tmod (BLOCK_SIZE : Int)).toNat
    match readChunks d (blocks.drop sb) so size.toNat with
    | none => none
    | some data => if (data.length : Int) = size then some data else none

/-- The copy loop of `write_data_to_blocks`: a block is read first when
the write does not cover it whole, else a zeroed buffer is used. -/
def writeChunks (d : Disk) : List Int → Nat → Nat → List Nat → Disk × Nat × Bool
  | [], _, _, _ => (d, 0, true)
  | b :: rest, so, rem, src =>
    if rem = 0 then (d, 0, true)
    else
      match (if 0 < so ∨ rem < BLOCK_SIZE then d.read_block b else some zeroBlock) with
      | none => (d, 0, false)
      | some buf =>
        let c := min (BLOCK_SIZE - so) rem
        match d.write_block b (writeBytes buf so (src.take c)) with
        | none => (d, 0, false)
        | some d' =>
          match writeChunks d' rest 0 (rem - c) (src.drop c) with
          | (d'', w, ok) => (d'', c + w, ok)

/-- `FileOperationsUtils::write_data_to_blocks` over a byte list `src`
whose length the C++ caller passes as `size`. -/
def write_data_to_blocks (d : Disk) (blocks : List Int) (offset : Int)
    (src : List Nat) (size : Int) : Disk × Bool :=
  if blocks = [] then (d, false)
  else
    let sb := (offset.tdiv (BLOCK_SIZE : Int)).toNat
    let so := (offset.tmod (BLOCK_SIZE : Int)).toNat
    match writeChunks d (blocks.drop sb) so size.toNat src with
    | (d', w, ok) => (d', ok && decide ((w : Int) = size))

/-! ### The open-file table and the file manager (`file_manager.cpp`) -/

/-- `FileDescriptor` of `common.h` (`open` renamed: Lean keyword). -/
structure FileDescriptor where
  inode_num : Int
  mode : Int
  position : Int
  openFlag : Bool
  deriving DecidableEq, Repr

/-- The superblock (only mount-relevant fields are consumed). -/
structure Superblock where
  magic_number : Int
  total_blocks : Int
  free_blocks : Int
  total_inodes : Int
  free_inodes : Int
  block_size : Int
  inode_table_start : Int
  data_blocks_start : Int
  inode_bitmap_start : Int
  data_bitmap_start : Int
  mount_time : Int
  write_time : Int
  deriving Repr

def sizeofSuperblock : Nat := 56

def encodeSuperblock (sb : Superblock) : List Nat :=
  encInt 4 sb.magic_number ++ encInt 4 sb.total_blocks ++ encInt 4 sb.free_blocks ++
  encInt 4 sb.total_inodes ++ encInt 4 sb.free_inodes ++ encInt 4 sb.block_size ++
  encInt 4 sb.inode_table_start ++ encInt 4 sb.data_blocks_start ++
  encInt 4 sb.inode_bitmap_start ++ encInt 4 sb.data_bitmap_start ++
  encInt 8 sb.mount_time ++ encInt 8 sb.write_time

def decodeSuperblock (bs : List Nat) : Superblock :=
  { magic_number := decInt 4 bs
    total_blocks := decInt 4 (bs.drop 4)
    free_blocks := decInt 4 (bs.drop 8)
    total_inodes := decInt 4 (bs.drop 12)
    free_inodes := decInt 4 (bs.drop 16)
    block_size := decInt 4 (bs.drop 20)
    inode_table_start := decInt 4 (bs.drop 24)
    data_blocks_start := decInt 4 (bs.drop 28)
    inode_bitmap_start := decInt 4 (bs.drop 32)
    data_bitmap_start := decInt 4 (bs.drop 36)
    mount_time := decInt 8 (bs.drop 40)
    write_time := decInt 8 (bs.drop 48) }

/-- The whole in-process state of one `FileSystem` object (and its
owned managers).  `disk_open` models the open host file of the
`DiskSimulator`; `now` is the constant wall clock handed to
`time(nullptr)`. -/
structure FS where
  disk : Disk
  disk_open : Bool
  im : InodeManager
  file_descriptors : Int → Option FileDescriptor
  next_fd : Int
  mounted : Bool
  superblock : Superblock
  now : Int

/-- The id-search loop of `allocate_file_descriptor` with explicit
fuel; `none` models the C++ loop never terminating (every candidate
occupied).  The wrap to 3 happens only when an *occupied* id was
scanned and the incremented id exceeds 1024. -/
def allocFdLoop (m : Int → Option FileDescriptor) : Nat → Int → Option Int
  | 0, _ => none
  | fuel + 1, v =>
    if (m v).isSome then
      allocFdLoop m fuel (if 1024 < v + 1 then 3 else v + 1)
    else some v

/-- `int FileManager::allocate_file_descriptor()`: scan from `next_fd`,
return the free id and leave `next_fd` just past it. -/
def FS.allocate_file_descriptor (fs : FS) : FS × Int :=
  match allocFdLoop fs.file_descriptors 2048 fs.next_fd with
  | none => (fs, -1)
  | some v => ({ fs with next_fd := v + 1 }, v)

/-- `bool FileManager::allocate_file_descriptor(inode, mode, fd)`. -/
def FS.allocate_fd_entry (fs : FS) (inode_num mode : Int) : FS × Option Int :=
  match fs.allocate_file_descriptor with
  | (fs1, fd) =>
    if fd = -1 then (fs1, none)
    else
      ({ fs1 with file_descriptors := fun k =>
           if k = fd then some { inode_num := inode_num, mode := mode, position := 0, openFlag := true }
           else fs1.file_descriptors k }, some fd)

def FS.free_file_descriptor (fs : FS) (fd : Int) : FS :=
  match fs.file_descriptors fd with
  | none => fs
  | some _ => { fs with file_descriptors := fun k => if k = fd then none else fs.file_descriptors k }

def FS.get_file_descriptor (fs : FS) (fd : Int) : Option FileDescriptor :=
  match fs.file_descriptors fd with
  | none => none
  | some desc => if desc.openFlag then some desc else none

def FS.setPosition (fs : FS) (fd : Int) (pos : Int) : FS :=
  { fs with file_descriptors := fun k =>
      if k = fd then (fs.file_descriptors k).map (fun desc => { desc with position := pos })
      else fs.file_descriptors k }

/-- `update_file_access_time` (write failure silently ignored). -/
def FS.update_file_access_time (fs : FS) (inode_num : Int) : FS :=
  match fs.im.read_inode fs.disk inode_num with
  | none => fs
  | some inode =>
    match fs.im.write_inode fs.disk inode_num { inode with access_time := fs.now } with
    | none => fs
    | some d' => { fs with disk := d' }

/-- `update_file_modification_time` (write failure silently ignored). -/
def FS.update_file_modification_time (fs : FS) (inode_num : Int) : FS :=
  match fs.im.read_inode fs.disk inode_num with
  | none => fs
  | some inode =>
    match fs.im.write_inode fs.disk inode_num { inode with modification_time := fs.now } with
    | none => fs
    | some d' => { fs with disk := d' }

/-- `allocate_file_inode` (`FileManager` and `FileSystem` carry the same
helper): allocate, write the default-initialized regular-file inode. -/
def FS.allocate_file_inode (fs : FS) : FS × Int :=
  match fs.im.allocate_inode fs.disk fs.now with
  | (im1, d1, none) => ({ fs with im := im1, disk := d1 }, -1)
  | (im1, d1, some new_inode) =>
    let dflt := fu_init_new_inode
      (FILE_TYPE_REGULAR.lor (FILE_PERMISSION_READ.lor FILE_PERMISSION_WRITE)) 1 fs.now
    match im1.write_inode d1 new_inode dflt with
    | none =>
      match im1.free_inode d1 new_inode with
      | (im2, d2, _) => ({ fs with im := im2, disk := d2 }, -1)
    | some d2 => ({ fs with im := im1, disk := d2 }, new_inode)

/-- The create-file body shared by `FileSystem::create_file` and
`FileManager::create_file` (their code is line-for-line the same; the
façade version normalizes the path first and checks the mount). -/
def FS.createFileCore (fs : FS) (path : List Char) (mode : Int) : FS × Int :=
  if PathManager.file_exists fs.im fs.disk path then (fs, -1)
  else
    match PathManager.validate_and_parse_path path with
    | none => (fs, -1)
    | some (filename, directory) =>
      let parent := PathManager.find_inode fs.im fs.disk directory
      if parent = -1 then (fs, -1)
      else
        match fs.allocate_file_inode with
        | (fs1, -1) => (fs1, -1)
        | (fs1, new_inode) =>
          match fs1.im.read_inode fs1.disk new_inode with
          | none =>
            match fs1.im.free_inode fs1.disk new_inode with
            | (im2, d2, _) => ({ fs1 with im := im2, disk := d2 }, -1)
          | some inode =>
            let inode2 := { inode with mode := FILE_TYPE_REGULAR.lor mode }
            match fs1.im.write_inode fs1.disk new_inode inode2 with
            | none =>
              match fs1.im.free_inode fs1.disk new_inode with
              | (im2, d2, _) => ({ fs1 with im := im2, disk := d2 }, -1)
            | some d2 =>
              match dirAddEntry fs1.im d2 parent filename new_inode fs.now with
              | (im3, d3, false) =>
                match im3.free_inode d3 new_inode with
                | (im4, d4, _) => ({ fs1 with im := im4, disk := d4 }, -1)
              | (im3, d3, true) => ({ fs1 with im := im3, disk := d3 }, new_inode)

/-- `FileManager::open_file` (path already normalized by the façade). -/
def FS.openFileCore (fs : FS) (path : List Char) (mode : Int) : FS × Int :=
  let ino := PathManager.find_inode fs.im fs.disk path
  let step : FS × Int :=
    if ino = -1 then
      if mode.land OPEN_MODE_CREATE ≠ 0 then
        fs.createFileCore path (FILE_PERMISSION_READ.lor FILE_PERMISSION_WRITE)
      else (fs, -1)
    else (fs, ino)
  match step with
  | (fs1, -1) => (fs1, -1)
  | (fs1, inode_num) =>
    match fs1.allocate_fd_entry inode_num mode with
    | (fs2, none) => (fs2, -1)
    | (fs2, some fd) =>
      let step2 : FS × Bool :=
        if mode.land OPEN_MODE_APPEND ≠ 0 then
          match fs2.im.read_inode fs2.disk inode_num with
          | none => (fs2.free_file_descriptor fd, false)
          | some inode => (fs2.setPosition fd inode.size, true)
        else (fs2, true)
      match step2 with
      | (fs3, false) => (fs3, -1)
      | (fs3, true) => (fs3.update_file_access_time inode_num, fd)

/-- `FileManager::close_file`. -/
def FS.closeFileCore (fs : FS) (fd : Int) : FS × Bool :=
  match fs.file_descriptors fd with
  | none => (fs, false)
  | some desc =>
    let fs1 := fs.update_file_modification_time desc.inode_num
    (fs1.free_file_descriptor fd, true)

/-- `FileManager::read_file`: returns the count and the bytes copied
out (the C++ fills the caller's buffer). -/
def FS.readFileCore (fs : FS) (fd : Int) (size : Int) : FS × Int × List Nat :=
  match fs.get_file_descriptor fd with
  | none => (fs, -1, [])
  | some desc =>
    if desc.mode.land OPEN_MODE_READ = 0 then (fs, -1, [])
    else
      match fs.im.read_inode fs.disk desc.inode_num with
      | none => (fs, -1, [])
      | some inode =>
        if inode.size ≤ desc.position then (fs, 0, [])
        else
          let bytes := min size (inode.size - desc.position)
          match fs.im.get_data_blocks fs.disk desc.inode_num with
          | none => (fs, -1, [])
          | some blocks =>
            match read_data_from_blocks fs.disk blocks desc.position bytes with
            | none => (fs, -1, [])
            | some data =>
              let fs1 := fs.setPosition fd (desc.position + bytes)
              (fs1.update_file_access_time desc.inode_num, bytes, data)

/-- `FileManager::write_file` over a byte list whose length the caller
passes as `size`. -/
def FS.writeFileCore (fs : FS) (fd : Int) (src : List Nat) (size : Int) : FS × Int :=
  match fs.get_file_descriptor fd with
  | none => (fs, -1)
  | some desc =>
    if desc.mode.land OPEN_MODE_WRITE = 0 then (fs, -1)
    else
      match fs.im.read_inode fs.disk desc.inode_num with
      | none => (fs, -1)
      | some inode =>
        let current_blocks := (inode.size + (BLOCK_SIZE : Int) - 1).tdiv (BLOCK_SIZE : Int)
        let required_blocks := (desc.position + size + (BLOCK_SIZE : Int) - 1).tdiv (BLOCK_SIZE : Int)
        let additional := required_blocks - current_blocks
        let step : FS × Option Inode :=
          if 0 < additional then
            match fs.im.allocate_data_blocks fs.disk desc.inode_num additional fs.now with
            | (im1, d1, none) => ({ fs with im := im1, disk := d1 }, none)
            | (im1, d1, some _) =>
              match im1.read_inode d1 desc.inode_num with
              | none => ({ fs with im := im1, disk := d1 }, none)
              | some inode' => ({ fs with im := im1, disk := d1 }, some inode')
          else (fs, some inode)
        match step with
        | (fs1, none) => (fs1, -1)
        | (fs1, some inode1) =>
          match fs1.im.get_data_blocks fs1.disk desc.inode_num with
          | none => (fs1, -1)
          | some blocks =>
            match write_data_to_blocks fs1.disk blocks desc.position src size with
            | (d2, false) => ({ fs1 with disk := d2 }, -1)
            | (d2, true) =>
              let new_size := max inode1.size (desc.position + size)
              let inode2 := { inode1 with size := new_size, modification_time := fs.now }
              match fs1.im.write_inode d2 desc.inode_num inode2 with
              | none => ({ fs1 with disk := d2 }, -1)
              | some d3 =>
                (({ fs1 with disk := d3 }).setPosition fd (desc.position + size), size)

/-- `FileManager::seek_file`. -/
def FS.seekFileCore (fs : FS) (fd : Int) (position : Int) : FS × Bool :=
  match fs.get_file_descriptor fd with
  | none => (fs, false)
  | some desc =>
    match fs.im.read_inode fs.disk desc.inode_num with
    | none => (fs, false)
    | some inode =>
      if position < 0 ∨ inode.size < position then (fs, false)
      else (fs.setPosition fd position, true)

/-! ### Formatting (`disk_simulator.cpp`) -/

def writeZeroedBlocks (d : Disk) (start : Int) : Nat → Disk × Bool
  | 0 => (d, true)
  | k + 1 =>
    match d.write_block start zeroBlock with
    | none => (d, false)
    | some d' => writeZeroedBlocks d' (start + 1) k

/-- `initialize_superblock` + `initialize_bitmaps` +
`initialize_inode_table` of `format_disk`. -/
def Disk.format_disk (d : Disk) (now : Int) : Disk × Bool :=
  let layout := calculate_layout d.total_blocks
  let total_inodes := layout.inode_table_blocks * (inodesPerBlock : Int)
  let sb : Superblock :=
    { magic_number := MAGIC_NUMBER
      total_blocks := d.total_blocks
      free_blocks := layout.data_blocks_count
      total_inodes := total_inodes
      free_inodes := total_inodes
      block_size := (BLOCK_SIZE : Int)
      inode_table_start := layout.inode_table_start
      data_blocks_start := layout.data_blocks_start
      inode_bitmap_start := layout.inode_bitmap_start
      data_bitmap_start := layout.data_bitmap_start
      mount_time := now
      write_time := now }
  match d.write_block layout.superblock_start (writeBytes zeroBlock 0 (encodeSuperblock sb)) with
  | none => (d, false)
  | some d1 =>
    match writeZeroedBlocks d1 layout.inode_bitmap_start layout.inode_bitmap_blocks.toNat with
    | (d2, false) => (d2, false)
    | (d2, true) =>
      match writeZeroedBlocks d2 layout.data_bitmap_start layout.data_bitmap_blocks.toNat with
      | (d3, false) => (d3, false)
      | (d3, true) => writeZeroedBlocks d3 layout.inode_table_start layout.inode_table_blocks.toNat

/-! ### The façade (`filesystem.cpp`)

The reader-writer lock and the diagnostic log are not modelled; every
façade call below is one linearized step. -/

/-- The root-entry repair scan of `ensure_root_directory`: returns the
fixed entry and `(isDot, isDotdot, changed)`. -/
def fixRootEntry (e : DirectoryEntry) : DirectoryEntry × Bool × Bool × Bool :=
  if e.name_length = 1 ∧ strncmpEq 1 e.name (strBytes ['.']) then
    if e.inode_number ≠ 0 then ({ e with inode_number := 0 }, true, false, true)
    else (e, true, false, false)
  else if e.name_length = 2 ∧ strncmpEq 2 e.name (strBytes ['.', '.']) then
    if e.inode_number ≠ 0 then ({ e with inode_number := 0 }, false, true, true)
    else (e, false, true, false)
  else (e, false, false, false)

def fixRootEntries : List DirectoryEntry → List DirectoryEntry × Bool × Bool × Bool
  | [] => ([], false, false, false)
  | e :: rest =>
    let f := fixRootEntry e
    let r := fixRootEntries rest
    (f.1 :: r.1, f.2.1 || r.2.1, f.2.2.1 || r.2.2.1, f.2.2.2 || r.2.2.2)

/-- `FileSystem::ensure_root_directory`. -/
def FS.ensure_root_directory (fs : FS) : FS × Bool :=
  let root : Int := 0
  let step1 : FS × Bool :=
    if fs.im.is_inode_allocated root = false then
      match fs.im.allocate_inode fs.disk fs.now with
      | (im1, d1, none) => ({ fs with im := im1, disk := d1 }, false)
      | (im1, d1, some a) =>
        if a ≠ root then ({ fs with im := im1, disk := d1 }, false)
        else ({ fs with im := im1, disk := d1 }, true)
    else (fs, true)
  match step1 with
  | (fs1, false) => (fs1, false)
  | (fs1, true) =>
    match fs1.im.read_inode fs1.disk root with
    | none => (fs1, false)
    | some root_inode =>
      let directory_mode := (FILE_TYPE_DIRECTORY.lor FILE_PERMISSION_READ).lor
        (FILE_PERMISSION_WRITE.lor FILE_PERMISSION_EXECUTE)
      let required := (FILE_PERMISSION_READ.lor FILE_PERMISSION_WRITE).lor FILE_PERMISSION_EXECUTE
      let t : Inode × Bool :=
        if root_inode.mode.land FILE_TYPE_DIRECTORY = 0 then
          (fu_init_new_inode directory_mode 2 fs1.now, true)
        else
          let t1 : Inode × Bool :=
            if root_inode.mode.land required ≠ required then
              ({ root_inode with mode := root_inode.mode.lor required }, true)
            else (root_inode, false)
          if t1.1.link_count < 2 then ({ t1.1 with link_count := 2 }, true) else t1
      let step2 : FS × Bool :=
        if t.2 then
          match fs1.im.write_inode fs1.disk root t.1 with
          | none => (fs1, false)
          | some d2 => ({ fs1 with disk := d2 }, true)
        else (fs1, true)
      match step2 with
      | (fs2, false) => (fs2, false)
      | (fs2, true) =>
        let readRes := dirRead fs2.im fs2.disk root
        let entries0 := readRes.getD []
        let needs_write0 := readRes.isNone
        let f := fixRootEntries entries0
        let entries1 := f.1
        let has_dot := f.2.1
        let has_dotdot := f.2.2.1
        let needs_write1 := needs_write0 || f.2.2.2
        let p2 : List DirectoryEntry × Bool :=
          if has_dot then (entries1, has_dot)
          else (mkDirEntry root ['.'] 1 :: entries1, true)
        let entries2 := p2.1
        let has_dot2 := p2.2
        let needs_write2 := needs_write1 || !has_dot
        let entries3 :=
          if has_dotdot then entries2
          else
            let dd := mkDirEntry root ['.', '.'] 2
            if has_dot2 then
              match entries2 with
              | [] => [dd]
              | x :: xs => x :: dd :: xs
            else dd :: entries2
        let needs_write3 := needs_write2 || !has_dotdot
        if needs_write3 = false then (fs2, true)
        else
          match fs2.im.get_data_blocks fs2.disk root with
          | none => (fs2, false)
          | some blocks =>
            let step3 : FS × Bool :=
              if blocks.isEmpty then
                match fs2.im.allocate_data_blocks fs2.disk root 1 fs2.now with
                | (im3, d3, none) => ({ fs2 with im := im3, disk := d3 }, false)
                | (im3, d3, some _) => ({ fs2 with im := im3, disk := d3 }, true)
              else (fs2, true)
            match step3 with
            | (fs3, false) => (fs3, false)
            | (fs3, true) =>
              match dirWrite fs3.im fs3.disk root entries3 fs3.now with
              | (im4, d4, ok) => ({ fs3 with im := im4, disk := d4 }, ok)

/-- `FileSystem::load_superblock`: block 0, magic check, layout. -/
def FS.load_superblock (fs : FS) : FS × Bool :=
  match fs.disk.read_block 0 with
  | none => (fs, false)
  | some buf =>
    let sb := decodeSuperblock (readBytes buf 0 sizeofSuperblock)
    let fs1 := { fs with superblock := sb }
    if sb.magic_number ≠ MAGIC_NUMBER then (fs1, false) else (fs1, true)

/-- `FileSystem::initialize_after_open`: superblock, inode store,
root repair.  (The cached layout is `disk.calculate_layout()`.) -/
def FS.initialize_after_open (fs : FS) : FS × Bool :=
  match fs.load_superblock with
  | (fs1, false) => (fs1, false)
  | (fs1, true) =>
    match fs1.im.init (calculate_layout fs1.disk.total_blocks) fs1.disk with
    | (im1, false) => ({ fs1 with im := im1 }, false)
    | (im1, true) =>
      match ({ fs1 with im := im1 } : FS).ensure_root_directory with
      | (fs2, ok) => (fs2, ok)

/-- `FileSystem::mount`: open the image, run the initialize chain,
close the image again when any step fails. -/
def FS.mount (fs : FS) (img : Disk) : FS × Bool :=
  if fs.mounted then (fs, false)
  else if fs.disk_open then (fs, false)
  else
    let fs1 := { fs with disk := img, disk_open := true }
    match fs1.initialize_after_open with
    | (fs2, false) => ({ fs2 with disk_open := false }, false)
    | (fs2, true) => ({ fs2 with mounted := true }, true)

/-- `FileSystem::create_file` (façade): mounted check, normalize, then
the shared create-file body. -/
def FS.create_file (fs : FS) (path : List Char) (mode : Int) : FS × Int :=
  if fs.mounted = false then (fs, -1)
  else fs.createFileCore (PathUtils.normalize_path path) mode

/-- `FileSystem::open_file` (façade). -/
def FS.open_file (fs : FS) (path : List Char) (mode : Int) : FS × Int :=
  if fs.mounted = false then (fs, -1)
  else fs.openFileCore (PathUtils.normalize_path path) mode

/-- `FileSystem::close_file` (façade). -/
def FS.close_file (fs : FS) (fd : Int) : FS × Bool :=
  if fs.mounted = false then (fs, false) else fs.closeFileCore fd

/-- `FileSystem::read_file` (façade). -/
def FS.read_file (fs : FS) (fd : Int) (size : Int) : FS × Int × List Nat :=
  if fs.mounted = false then (fs, -1, []) else fs.readFileCore fd size

/-- `FileSystem::write_file` (façade). -/
def FS.write_file (fs : FS) (fd : Int) (src : List Nat) (size : Int) : FS × Int :=
  if fs.mounted = false then (fs, -1) else fs.writeFileCore fd src size

/-- `FileSystem::seek_file` (façade). -/
def FS.seek_file (fs : FS) (fd : Int) (position : Int) : FS × Bool :=
  if fs.mounted = false then (fs, false) else fs.seekFileCore fd position

/-- The `FileSystem` constructor state: nothing open, `next_fd = 3`. -/
def FS.construct (now : Int) : FS :=
  { disk := { total_blocks := 0, blocks := fun _ => zeroBlock }
    disk_open := false
    im := { layout := calculate_layout 0
            inode_bitmap := BitmapManager.construct 0
            data_bitmap := BitmapManager.construct 0
            inited := false }
    file_descriptors := fun _ => none
    next_fd := 3
    mounted := false
    superblock := decodeSuperblock []
    now := now }

/-- A sequence of `write_inode` calls, each of which must succeed. -/
def InodeManager.applyWrites (im : InodeManager) : Disk → List (Int × Inode) → Option Disk
  | d, [] => some d
  | d, (m, J) :: rest =>
    match im.write_inode d m J with
    | none => none
    | some d' => im.applyWrites d' rest

/-- States of one bitmap reachable through its public mutators when
every `load_from_disk` succeeds. -/
inductive BReach : BitmapManager → Prop
  | construct (size : Int) (h : 0 ≤ size) : BReach (BitmapManager.construct size)
  | alloc {bm : BitmapManager} : BReach bm → BReach bm.allocate_bit.1
  | free {bm : BitmapManager} (bit : Int) : BReach bm → BReach (bm.free_bit bit).1
  | clear {bm : BitmapManager} : BReach bm → BReach bm.clear_all
  | load {bm : BitmapManager} (d : Disk) (s n : Int) : BReach bm →
      (bm.load_from_disk d s n).2 = true → BReach (bm.load_from_disk d s n).1

/-! ### Concrete states used in the theorems below -/

/-- A one-block disk with zeroed content. -/
def c4Disk : Disk := { total_blocks := 1, blocks := fun _ => zeroBlock }

/-- A small hand-built layout used by concrete states below. -/
def wLayout : DiskLayout :=
  { superblock_start := 0, superblock_blocks := 1
    inode_bitmap_start := 2, inode_bitmap_blocks := 1
    data_bitmap_start := 3, data_bitmap_blocks := 1
    inode_table_start := 1, inode_table_blocks := 1
    data_blocks_start := 4, data_blocks_count := 4 }

def wIM : InodeManager :=
  { layout := wLayout, inode_bitmap := BitmapManager.construct 42
    data_bitmap := BitmapManager.construct 4, inited := true }

def wDisk : Disk := { total_blocks := 8, blocks := fun _ => zeroBlock }

def wDesc : FileDescriptor :=
  { inode_num := 0, mode := 3, position := 0, openFlag := true }

def wSB : Superblock :=
  { magic_number := MAGIC_NUMBER, total_blocks := 8, free_blocks := 4
    total_inodes := 42, free_inodes := 42, block_size := 4096
    inode_table_start := 1, data_blocks_start := 4
    inode_bitmap_start := 2, data_bitmap_start := 3
    mount_time := 0, write_time := 0 }

/-- A mounted filesystem over `wDisk` with one open descriptor (fd 3,
inode 0, read and write bits set). -/
def wFS : FS :=
  { disk := wDisk, disk_open := true, im := wIM
    file_descriptors := fun k => if k = 3 then some wDesc else none
    next_fd := 4, mounted := true, superblock := wSB, now := 0 }

/-- The all-zero inode stored at slot 0 of `wDisk`. -/
def wInode : Inode := decodeInode (readBytes zeroBlock 0 sizeofInode)

/-- The disk after writing inode 0 of `wDisk`. -/
def c2d1 : Disk := (wIM.write_inode wDisk 0 (init_new_inode 5)).getD wDisk

/-- The disk after additionally writing the neighbouring inode 1. -/
def c2d2 : Disk := (wIM.applyWrites c2d1 [(1, init_new_inode 7)]).getD wDisk

/-- Repeated `allocate_fd_entry` calls starting from a fresh
filesystem: the k-th state of the open-file table. -/
def c8Iter : Nat → FS
  | 0 => FS.construct 0
  | k + 1 => ((c8Iter k).allocate_fd_entry 0 1).1

/-- Layout of the C3 example image: inode table at block 1, data region
from block 4. -/
def c3Layout : DiskLayout :=
  { superblock_start := 0, superblock_blocks := 1
    inode_bitmap_start := 2, inode_bitmap_blocks := 1
    data_bitmap_start := 3, data_bitmap_blocks := 1
    inode_table_start := 1, inode_table_blocks := 1
    data_blocks_start := 4, data_blocks_count := 8 }

/-- Data bitmap with bits 1,2,3,6,7 (blocks 5,6,7,10,11) allocated. -/
def c3BM : BitmapManager :=
  (((((BitmapManager.construct 8).set_bit 1).set_bit 2).set_bit 3).set_bit 6).set_bit 7

/-- An inode with one direct block (5), a single-indirect block (6,
listing 9) and a double-indirect block (7, listing the inner indirect
block 10, which lists data block 11). -/
def c3Inode : Inode :=
  { mode := 1, owner_id := 0, group_id := 0, size := 100
    access_time := 0, modification_time := 0, creation_time := 0
    link_count := 1
    direct_blocks := [5, 0, 0, 0, 0, 0, 0, 0, 0, 0]
    indirect_block := 6, double_indirect_block := 7 }

def c3Disk : Disk :=
  { total_blocks := 12
    blocks := fun b =>
      if b = 1 then writeBytes zeroBlock 0 (encodeInode c3Inode)
      else if b = 6 then intsBlock [9]
      else if b = 7 then intsBlock [10]
      else if b = 10 then intsBlock [11]
      else zeroBlock }

def c3IM : InodeManager :=
  { layout := c3Layout, inode_bitmap := BitmapManager.construct 42
    data_bitmap := c3BM, inited := true }

/-- A freshly formatted 24-block image. -/
def c1Img : Disk :=
  (Disk.format_disk { total_blocks := 24, blocks := fun _ => zeroBlock } 0).1

/-- The filesystem after mounting `c1Img`. -/
def c1FS0 : FS := ((FS.construct 0).mount c1Img).1

/-- ... after `create_file "/f"` (the core call; the facade only adds
the mounted check and path normalization, see `c1_round_trip_failure`). -/
def c1FS1 : FS := (c1FS0.createFileCore ['/', 'f'] 3).1

/-- ... after `open_file "/f" (READ|WRITE)` (core call). -/
def c1FS2 : FS := (c1FS1.openFileCore ['/', 'f'] 3).1

/-! ## Theorems

Everything below is proved about the embedded program above. -/

/-! ### Bytes and little-endian integers -/

theorem leNat_natLE (w n : Nat) : leNat (natLE w n) = n % 256 ^ w := by
  induction w generalizing n with
  | zero => simp [natLE, leNat, Nat.mod_one]
  | succ w ih =>
    simp only [natLE, leNat, ih]
    rw [pow_succ', Nat.mod_mul]

theorem natLE_length (w n : Nat) : (natLE w n).length = w := by
  induction w generalizing n with
  | zero => rfl
  | succ w ih => simp [natLE, ih]

theorem encInt_length (w : Nat) (v : Int) : (encInt w v).length = w :=
  natLE_length _ _

theorem pow256_eq (w : Nat) : (256 : Nat) ^ w = 2 ^ (8 * w) := by
  rw [show (256 : Nat) = 2 ^ 8 from rfl, ← pow_mul]

theorem intToNat_pow (k : Nat) : ((2 : Int) ^ k).toNat = 2 ^ k := by
  rw [show ((2 : Int) ^ k) = ((2 ^ k : Nat) : Int) by push_cast; ring, Int.toNat_natCast]

/-- Round trip of the `w`-byte two's complement encoding. -/
theorem decInt_encInt (w : Nat) (v : Int) (hw : 0 < w) (h : IntFits w v) :
    decInt w (encInt w v) = v := by
  obtain ⟨hlo, hhi⟩ := h
  have hpow : (2 : Int) ^ (8 * w) = 2 * 2 ^ (8 * w - 1) := by
    have h0 : (8 * w - 1) + 1 = 8 * w := by omega
    calc (2 : Int) ^ (8 * w) = 2 ^ ((8 * w - 1) + 1) := by rw [h0]
      _ = 2 ^ (8 * w - 1) * 2 := pow_succ _ _
      _ = 2 * 2 ^ (8 * w - 1) := by ring
  have hm : (0 : Int) < 2 ^ (8 * w) := by positivity
  have htn : ((2 : Int) ^ (8 * w)).toNat = 2 ^ (8 * w) := intToNat_pow _
  have htn1 : ((2 : Int) ^ (8 * w - 1)).toNat = 2 ^ (8 * w - 1) := intToNat_pow _
  unfold decInt encInt
  rw [List.take_of_length_le (by rw [natLE_length]), leNat_natLE, pow256_eq]
  have hnn : 0 ≤ v.emod (2 ^ (8 * w)) := Int.emod_nonneg _ (by positivity)
  have hlt : v.emod (2 ^ (8 * w)) < 2 ^ (8 * w) := Int.emod_lt_of_pos _ hm
  rw [Nat.mod_eq_of_lt (by omega)]
  rcases le_or_lt 0 v with hv | hv
  · have hemod : v.emod (2 ^ (8 * w)) = v := Int.emod_eq_of_lt hv (by omega)
    rw [hemod, if_pos (by omega)]
    omega
  · have h4 : (v + 2 ^ (8 * w)) % (2 ^ (8 * w)) = v % (2 ^ (8 * w)) := by
      have h4a := Int.add_mul_emod_self_left (a := v) (b := 2 ^ (8 * w)) (c := 1)
      rw [Int.mul_one] at h4a
      exact h4a
    have hemod : v.emod (2 ^ (8 * w)) = v + 2 ^ (8 * w) := by
      have h5 : (v + 2 ^ (8 * w)) % (2 ^ (8 * w)) = v + 2 ^ (8 * w) :=
        Int.emod_eq_of_lt (by omega) (by omega)
      calc v.emod (2 ^ (8 * w)) = (v + 2 ^ (8 * w)) % (2 ^ (8 * w)) := h4.symm
        _ = v + 2 ^ (8 * w) := h5
    rw [hemod, if_neg (by omega)]
    omega


/-! ### Byte-store lemmas -/

theorem readBytes_length (b : Block) (off len : Nat) : (readBytes b off len).length = len := by
  simp [readBytes]

theorem readBytes_writeBytes_self (b : Block) (off : Nat) (src : List Nat) :
    readBytes (writeBytes b off src) off src.length = src := by
  apply List.ext_getElem
  · simp [readBytes]
  · intro i h1 h2
    simp only [readBytes, List.getElem_map, List.getElem_range, writeBytes]
    rw [if_pos (by omega)]
    simp only [Nat.add_sub_cancel_left]
    rw [List.getD_eq_getElem _ _ h2]

theorem readBytes_writeBytes_disjoint (b : Block) (o1 o2 len : Nat) (src : List Nat)
    (h : o2 + len ≤ o1 ∨ o1 + src.length ≤ o2) :
    readBytes (writeBytes b o1 src) o2 len = readBytes b o2 len := by
  apply List.ext_getElem
  · simp [readBytes]
  · intro i h1 h2
    simp only [readBytes, List.getElem_map, List.getElem_range, writeBytes]
    rw [if_neg (by simp [readBytes] at h1; omega)]

theorem readBytes_take (b : Block) (off len k : Nat) :
    (readBytes b off len).take k = readBytes b off (min k len) := by
  simp [readBytes, ← List.map_take, List.take_range]

theorem readBytes_drop (b : Block) (off len k : Nat) :
    (readBytes b off len).drop k = readBytes b (off + k) (len - k) := by
  apply List.ext_getElem
  · simp [readBytes]
  · intro i h1 h2
    simp [readBytes, Nat.add_assoc]

/-- `encodeInode` is always exactly `sizeofInode` bytes. -/
theorem encodeInode_length (I : Inode) : (encodeInode I).length = sizeofInode := by
  have hft : ((I.direct_blocks.take 10 ++
      List.replicate (10 - I.direct_blocks.length) 0).map (encInt 4)).flatten.length = 40 := by
    rw [List.length_flatten]
    have : ∀ l : List Int, (l.map (encInt 4)).map List.length = l.map (fun _ => 4) := by
      intro l; rw [List.map_map]; exact List.map_congr_left (fun a _ => encInt_length 4 a)
    rw [this, List.map_const']
    simp only [List.sum_replicate, List.length_append, List.length_take, List.length_replicate,
      smul_eq_mul]
    omega
  simp only [encodeInode, List.length_append, encInt_length, hft, sizeofInode]
  rfl


theorem decInt_prefix (w : Nat) (pre suf : List Nat) (h : w ≤ pre.length) :
    decInt w (pre ++ suf) = decInt w pre := by
  unfold decInt
  rw [List.take_append_of_le_length h]

set_option maxHeartbeats 2000000

/-- Decoding inverts encoding for well-formed inodes. -/
theorem decodeInode_encodeInode (I : Inode) (h : InodeWF I) :
    decodeInode (encodeInode I) = I := by
  obtain ⟨mo, ow, gr, sz, at_, mt, ct, lk, db, ib, dbi⟩ := I
  obtain ⟨h1, h2, h3, h4, h5, h6, h7, h8, hlen, hdir, h9, h10⟩ := h
  simp only at hlen hdir h1 h2 h3 h4 h5 h6 h7 h8 h9 h10 ⊢
  rcases db with _ | ⟨a0, _ | ⟨a1, _ | ⟨a2, _ | ⟨a3, _ | ⟨a4, _ | ⟨a5, _ | ⟨a6, _ | ⟨a7, _ | ⟨a8, _ | ⟨a9, tl⟩⟩⟩⟩⟩⟩⟩⟩⟩⟩ <;>
    first
      | (exfalso; simp only [List.length_cons, List.length_nil] at hlen; omega)
      | skip
  have htl : tl = [] := by
    cases tl with
    | nil => rfl
    | cons x xs => exfalso; simp only [List.length_cons, List.length_nil] at hlen; omega
  subst htl
  have henc : encodeInode ⟨mo, ow, gr, sz, at_, mt, ct, lk, [a0,a1,a2,a3,a4,a5,a6,a7,a8,a9], ib, dbi⟩ =
      encInt 4 mo ++ (encInt 4 ow ++ (encInt 4 gr ++ (encInt 4 sz ++ (encInt 8 at_ ++ (encInt 8 mt ++ (encInt 8 ct ++ (encInt 4 lk ++ (encInt 4 a0 ++ (encInt 4 a1 ++ (encInt 4 a2 ++ (encInt 4 a3 ++ (encInt 4 a4 ++ (encInt 4 a5 ++ (encInt 4 a6 ++ (encInt 4 a7 ++ (encInt 4 a8 ++ (encInt 4 a9 ++ (encInt 4 ib ++ (encInt 4 dbi ++ ([0,0,0,0])))))))))))))))))))) := by
    simp [encodeInode, List.append_assoc]
  rw [henc]
  set l := encInt 4 mo ++ (encInt 4 ow ++ (encInt 4 gr ++ (encInt 4 sz ++ (encInt 8 at_ ++ (encInt 8 mt ++ (encInt 8 ct ++ (encInt 4 lk ++ (encInt 4 a0 ++ (encInt 4 a1 ++ (encInt 4 a2 ++ (encInt 4 a3 ++ (encInt 4 a4 ++ (encInt 4 a5 ++ (encInt 4 a6 ++ (encInt 4 a7 ++ (encInt 4 a8 ++ (encInt 4 a9 ++ (encInt 4 ib ++ (encInt 4 dbi ++ ([0,0,0,0])))))))))))))))))))) with hl
  have d4 : l.drop 4 = encInt 4 ow ++ (encInt 4 gr ++ (encInt 4 sz ++ (encInt 8 at_ ++ (encInt 8 mt ++ (encInt 8 ct ++ (encInt 4 lk ++ (encInt 4 a0 ++ (encInt 4 a1 ++ (encInt 4 a2 ++ (encInt 4 a3 ++ (encInt 4 a4 ++ (encInt 4 a5 ++ (encInt 4 a6 ++ (encInt 4 a7 ++ (encInt 4 a8 ++ (encInt 4 a9 ++ (encInt 4 ib ++ (encInt 4 dbi ++ ([0,0,0,0]))))))))))))))))))) := List.drop_left' (encInt_length 4 mo)
  have d8 : l.drop 8 = encInt 4 gr ++ (encInt 4 sz ++ (encInt 8 at_ ++ (encInt 8 mt ++ (encInt 8 ct ++ (encInt 4 lk ++ (encInt 4 a0 ++ (encInt 4 a1 ++ (encInt 4 a2 ++ (encInt 4 a3 ++ (encInt 4 a4 ++ (encInt 4 a5 ++ (encInt 4 a6 ++ (encInt 4 a7 ++ (encInt 4 a8 ++ (encInt 4 a9 ++ (encInt 4 ib ++ (encInt 4 dbi ++ ([0,0,0,0])))))))))))))))))) := by
    conv_lhs => rw [show (8:Nat) = 4 + 4 from rfl, ← List.drop_drop, d4]
    exact List.drop_left' (encInt_length 4 ow)
  have d12 : l.drop 12 = encInt 4 sz ++ (encInt 8 at_ ++ (encInt 8 mt ++ (encInt 8 ct ++ (encInt 4 lk ++ (encInt 4 a0 ++ (encInt 4 a1 ++ (encInt 4 a2 ++ (encInt 4 a3 ++ (encInt 4 a4 ++ (encInt 4 a5 ++ (encInt 4 a6 ++ (encInt 4 a7 ++ (encInt 4 a8 ++ (encInt 4 a9 ++ (encInt 4 ib ++ (encInt 4 dbi ++ ([0,0,0,0]))))))))))))))))) := by
    conv_lhs => rw [show (12:Nat) = 8 + 4 from rfl, ← List.drop_drop, d8]
    exact List.drop_left' (encInt_length 4 gr)
  have d16 : l.drop 16 = encInt 8 at_ ++ (encInt 8 mt ++ (encInt 8 ct ++ (encInt 4 lk ++ (encInt 4 a0 ++ (encInt 4 a1 ++ (encInt 4 a2 ++ (encInt 4 a3 ++ (encInt 4 a4 ++ (encInt 4 a5 ++ (encInt 4 a6 ++ (encInt 4 a7 ++ (encInt 4 a8 ++ (encInt 4 a9 ++ (encInt 4 ib ++ (encInt 4 dbi ++ ([0,0,0,0])))))))))))))))) := by
    conv_lhs => rw [show (16:Nat) = 12 + 4 from rfl, ← List.drop_drop, d12]
    exact List.drop_left' (encInt_length 4 sz)
  have d24 : l.drop 24 = encInt 8 mt ++ (encInt 8 ct ++ (encInt 4 lk ++ (encInt 4 a0 ++ (encInt 4 a1 ++ (encInt 4 a2 ++ (encInt 4 a3 ++ (encInt 4 a4 ++ (encInt 4 a5 ++ (encInt 4 a6 ++ (encInt 4 a7 ++ (encInt 4 a8 ++ (encInt 4 a9 ++ (encInt 4 ib ++ (encInt 4 dbi ++ ([0,0,0,0]))))))))))))))) := by
    conv_lhs => rw [show (24:Nat) = 16 + 8 from rfl, ← List.drop_drop, d16]
    exact List.drop_left' (encInt_length 8 at_)
  have d32 : l.drop 32 = encInt 8 ct ++ (encInt 4 lk ++ (encInt 4 a0 ++ (encInt 4 a1 ++ (encInt 4 a2 ++ (encInt 4 a3 ++ (encInt 4 a4 ++ (encInt 4 a5 ++ (encInt 4 a6 ++ (encInt 4 a7 ++ (encInt 4 a8 ++ (encInt 4 a9 ++ (encInt 4 ib ++ (encInt 4 dbi ++ ([0,0,0,0])))))))))))))) := by
    conv_lhs => rw [show (32:Nat) = 24 + 8 from rfl, ← List.drop_drop, d24]
    exact List.drop_left' (encInt_length 8 mt)
  have d40 : l.drop 40 = encInt 4 lk ++ (encInt 4 a0 ++ (encInt 4 a1 ++ (encInt 4 a2 ++ (encInt 4 a3 ++ (encInt 4 a4 ++ (encInt 4 a5 ++ (encInt 4 a6 ++ (encInt 4 a7 ++ (encInt 4 a8 ++ (encInt 4 a9 ++ (encInt 4 ib ++ (encInt 4 dbi ++ ([0,0,0,0]))))))))))))) := by
    conv_lhs => rw [show (40:Nat) = 32 + 8 from rfl, ← List.drop_drop, d32]
    exact List.drop_left' (encInt_length 8 ct)
  have d44 : l.drop 44 = encInt 4 a0 ++ (encInt 4 a1 ++ (encInt 4 a2 ++ (encInt 4 a3 ++ (encInt 4 a4 ++ (encInt 4 a5 ++ (encInt 4 a6 ++ (encInt 4 a7 ++ (encInt 4 a8 ++ (encInt 4 a9 ++ (encInt 4 ib ++ (encInt 4 dbi ++ ([0,0,0,0])))))))))))) := by
    conv_lhs => rw [show (44:Nat) = 40 + 4 from rfl, ← List.drop_drop, d40]
    exact List.drop_left' (encInt_length 4 lk)
  have d48 : l.drop 48 = encInt 4 a1 ++ (encInt 4 a2 ++ (encInt 4 a3 ++ (encInt 4 a4 ++ (encInt 4 a5 ++ (encInt 4 a6 ++ (encInt 4 a7 ++ (encInt 4 a8 ++ (encInt 4 a9 ++ (encInt 4 ib ++ (encInt 4 dbi ++ ([0,0,0,0]))))))))))) := by
    conv_lhs => rw [show (48:Nat) = 44 + 4 from rfl, ← List.drop_drop, d44]
    exact List.drop_left' (encInt_length 4 a0)
  have d52 : l.drop 52 = encInt 4 a2 ++ (encInt 4 a3 ++ (encInt 4 a4 ++ (encInt 4 a5 ++ (encInt 4 a6 ++ (encInt 4 a7 ++ (encInt 4 a8 ++ (encInt 4 a9 ++ (encInt 4 ib ++ (encInt 4 dbi ++ ([0,0,0,0])))))))))) := by
    conv_lhs => rw [show (52:Nat) = 48 + 4 from rfl, ← List.drop_drop, d48]
    exact List.drop_left' (encInt_length 4 a1)
  have d56 : l.drop 56 = encInt 4 a3 ++ (encInt 4 a4 ++ (encInt 4 a5 ++ (encInt 4 a6 ++ (encInt 4 a7 ++ (encInt 4 a8 ++ (encInt 4 a9 ++ (encInt 4 ib ++ (encInt 4 dbi ++ ([0,0,0,0]))))))))) := by
    conv_lhs => rw [show (56:Nat) = 52 + 4 from rfl, ← List.drop_drop, d52]
    exact List.drop_left' (encInt_length 4 a2)
  have d60 : l.drop 60 = encInt 4 a4 ++ (encInt 4 a5 ++ (encInt 4 a6 ++ (encInt 4 a7 ++ (encInt 4 a8 ++ (encInt 4 a9 ++ (encInt 4 ib ++ (encInt 4 dbi ++ ([0,0,0,0])))))))) := by
    conv_lhs => rw [show (60:Nat) = 56 + 4 from rfl, ← List.drop_drop, d56]
    exact List.drop_left' (encInt_length 4 a3)
  have d64 : l.drop 64 = encInt 4 a5 ++ (encInt 4 a6 ++ (encInt 4 a7 ++ (encInt 4 a8 ++ (encInt 4 a9 ++ (encInt 4 ib ++ (encInt 4 dbi ++ ([0,0,0,0]))))))) := by
    conv_lhs => rw [show (64:Nat) = 60 + 4 from rfl, ← List.drop_drop, d60]
    exact List.drop_left' (encInt_length 4 a4)
  have d68 : l.drop 68 = encInt 4 a6 ++ (encInt 4 a7 ++ (encInt 4 a8 ++ (encInt 4 a9 ++ (encInt 4 ib ++ (encInt 4 dbi ++ ([0,0,0,0])))))) := by
    conv_lhs => rw [show (68:Nat) = 64 + 4 from rfl, ← List.drop_drop, d64]
    exact List.drop_left' (encInt_length 4 a5)
  have d72 : l.drop 72 = encInt 4 a7 ++ (encInt 4 a8 ++ (encInt 4 a9 ++ (encInt 4 ib ++ (encInt 4 dbi ++ ([0,0,0,0]))))) := by
    conv_lhs => rw [show (72:Nat) = 68 + 4 from rfl, ← List.drop_drop, d68]
    exact List.drop_left' (encInt_length 4 a6)
  have d76 : l.drop 76 = encInt 4 a8 ++ (encInt 4 a9 ++ (encInt 4 ib ++ (encInt 4 dbi ++ ([0,0,0,0])))) := by
    conv_lhs => rw [show (76:Nat) = 72 + 4 from rfl, ← List.drop_drop, d72]
    exact List.drop_left' (encInt_length 4 a7)
  have d80 : l.drop 80 = encInt 4 a9 ++ (encInt 4 ib ++ (encInt 4 dbi ++ ([0,0,0,0]))) := by
    conv_lhs => rw [show (80:Nat) = 76 + 4 from rfl, ← List.drop_drop, d76]
    exact List.drop_left' (encInt_length 4 a8)
  have d84 : l.drop 84 = encInt 4 ib ++ (encInt 4 dbi ++ ([0,0,0,0])) := by
    conv_lhs => rw [show (84:Nat) = 80 + 4 from rfl, ← List.drop_drop, d80]
    exact List.drop_left' (encInt_length 4 a9)
  have d88 : l.drop 88 = encInt 4 dbi ++ ([0,0,0,0]) := by
    conv_lhs => rw [show (88:Nat) = 84 + 4 from rfl, ← List.drop_drop, d84]
    exact List.drop_left' (encInt_length 4 ib)
  simp only [decodeInode, Inode.mk.injEq]
  refine ⟨?_, ?_, ?_, ?_, ?_, ?_, ?_, ?_, ?_, ?_, ?_⟩
  · rw [hl, decInt_prefix 4 _ _ (by rw [encInt_length]), decInt_encInt 4 mo (by norm_num) h1]
  · rw [d4, decInt_prefix 4 _ _ (by rw [encInt_length]), decInt_encInt 4 ow (by norm_num) h2]
  · rw [d8, decInt_prefix 4 _ _ (by rw [encInt_length]), decInt_encInt 4 gr (by norm_num) h3]
  · rw [d12, decInt_prefix 4 _ _ (by rw [encInt_length]), decInt_encInt 4 sz (by norm_num) h4]
  · rw [d16, decInt_prefix 8 _ _ (by rw [encInt_length]), decInt_encInt 8 at_ (by norm_num) h5]
  · rw [d24, decInt_prefix 8 _ _ (by rw [encInt_length]), decInt_encInt 8 mt (by norm_num) h6]
  · rw [d32, decInt_prefix 8 _ _ (by rw [encInt_length]), decInt_encInt 8 ct (by norm_num) h7]
  · rw [d40, decInt_prefix 4 _ _ (by rw [encInt_length]), decInt_encInt 4 lk (by norm_num) h8]
  · rw [show List.range 10 = [0,1,2,3,4,5,6,7,8,9] from rfl]
    simp only [List.map_cons, List.map_nil]
    norm_num
    refine ⟨?_, ?_, ?_, ?_, ?_, ?_, ?_, ?_, ?_, ?_⟩
    · rw [d44, decInt_prefix 4 _ _ (by rw [encInt_length]), decInt_encInt 4 a0 (by norm_num) (hdir a0 (by simp))]
    · rw [d48, decInt_prefix 4 _ _ (by rw [encInt_length]), decInt_encInt 4 a1 (by norm_num) (hdir a1 (by simp))]
    · rw [d52, decInt_prefix 4 _ _ (by rw [encInt_length]), decInt_encInt 4 a2 (by norm_num) (hdir a2 (by simp))]
    · rw [d56, decInt_prefix 4 _ _ (by rw [encInt_length]), decInt_encInt 4 a3 (by norm_num) (hdir a3 (by simp))]
    · rw [d60, decInt_prefix 4 _ _ (by rw [encInt_length]), decInt_encInt 4 a4 (by norm_num) (hdir a4 (by simp))]
    · rw [d64, decInt_prefix 4 _ _ (by rw [encInt_length]), decInt_encInt 4 a5 (by norm_num) (hdir a5 (by simp))]
    · rw [d68, decInt_prefix 4 _ _ (by rw [encInt_length]), decInt_encInt 4 a6 (by norm_num) (hdir a6 (by simp))]
    · rw [d72, decInt_prefix 4 _ _ (by rw [encInt_length]), decInt_encInt 4 a7 (by norm_num) (hdir a7 (by simp))]
    · rw [d76, decInt_prefix 4 _ _ (by rw [encInt_length]), decInt_encInt 4 a8 (by norm_num) (hdir a8 (by simp))]
    · rw [d80, decInt_prefix 4 _ _ (by rw [encInt_length]), decInt_encInt 4 a9 (by norm_num) (hdir a9 (by simp))]
  · rw [d84, decInt_prefix 4 _ _ (by rw [encInt_length]), decInt_encInt 4 ib (by norm_num) h9]
  · rw [d88, decInt_prefix 4 _ _ (by rw [encInt_length]), decInt_encInt 4 dbi (by norm_num) h10]

end DiskFS

namespace DiskFS

theorem testBit_or_pow (x m n : Nat) :
    (x ||| 2 ^ m).testBit n = (x.testBit n || decide (m = n)) := by
  rw [Nat.testBit_or, Nat.testBit_two_pow]

theorem testBit_mask (m n : Nat) (hm : m < 8) (hn : n < 8) :
    (255 - 2 ^ m).testBit n = decide (n ≠ m) := by
  interval_cases m <;> interval_cases n <;> decide

theorem getBit_set_bit_self (bm : BitmapManager) (k : Int) (h : bm.is_valid_bit k = true) :
    (bm.set_bit k).getBit k.toNat = true := by
  simp only [BitmapManager.set_bit, h, if_true, BitmapManager.getBit]
  rw [testBit_or_pow]
  simp

theorem getBit_set_bit_other (bm : BitmapManager) (k : Int) (j : Nat) (hj : j ≠ k.toNat) :
    (bm.set_bit k).getBit j = bm.getBit j := by
  unfold BitmapManager.set_bit
  by_cases h : bm.is_valid_bit k
  · simp only [h, if_true, BitmapManager.getBit]
    by_cases hb : j / 8 = k.toNat / 8
    · rw [if_pos hb, testBit_or_pow]
      have : ¬ (k.toNat % 8 = j % 8) := by omega
      simp [this]
    · rw [if_neg hb]
  · simp [h]

theorem getBit_clear_bit_self (bm : BitmapManager) (k : Int) (h : bm.is_valid_bit k = true) :
    (bm.clear_bit k).getBit k.toNat = false := by
  simp only [BitmapManager.clear_bit, h, if_true, BitmapManager.getBit]
  rw [Nat.testBit_and, testBit_mask _ _ (by omega) (by omega)]
  simp

theorem getBit_clear_bit_other (bm : BitmapManager) (k : Int) (j : Nat) (hj : j ≠ k.toNat) :
    (bm.clear_bit k).getBit j = bm.getBit j := by
  unfold BitmapManager.clear_bit
  by_cases h : bm.is_valid_bit k
  · simp only [h, if_true, BitmapManager.getBit]
    by_cases hb : j / 8 = k.toNat / 8
    · rw [if_pos hb, Nat.testBit_and, testBit_mask _ _ (by omega) (by omega)]
      have : j % 8 ≠ k.toNat % 8 := by omega
      simp [this]
    · rw [if_neg hb]
  · simp [h]

theorem countP_range_update (N : Nat) (p q : Nat → Bool) (k : Nat) (hk : k < N)
    (hsame : ∀ j, j ≠ k → p j = q j) :
    (List.range N).countP p + (if q k then 1 else 0) =
    (List.range N).countP q + (if p k then 1 else 0) := by
  induction N with
  | zero => omega
  | succ N ih =>
    rw [List.range_succ, List.countP_append, List.countP_append]
    by_cases h : k = N
    · subst h
      have : (List.range k).countP p = (List.range k).countP q := by
        apply List.countP_congr
        intro a ha
        have : a ≠ k := by simp [List.mem_range] at ha; omega
        simp [hsame a this]
      simp only [List.countP_cons, List.countP_nil]
      rcases hp : p k <;> rcases hq : q k <;> simp [hp, hq, this]
    · have hk' : k < N := by omega
      have := ih hk'
      have hsN : p N = q N := hsame N (by omega)
      simp only [List.countP_cons, List.countP_nil]
      rcases hp : p N <;> rw [hp] at hsN <;> simp [hp, ← hsN] <;> omega

theorem find?_range_some {p : Nat → Bool} {N b : Nat}
    (h : (List.range N).find? p = some b) :
    b < N ∧ p b = true ∧ ∀ j < b, p j = false := by
  induction N with
  | zero => simp [List.range_zero] at h
  | succ N ih =>
    rw [List.range_succ, List.find?_append] at h
    rcases hf : (List.range N).find? p with _ | b'
    · rw [hf] at h
      simp at h
      obtain ⟨hpN, hbN⟩ := h
      subst hbN
      refine ⟨by omega, hpN, ?_⟩
      intro j hj
      have := List.find?_eq_none.mp hf j (by simp [List.mem_range]; omega)
      simpa using this
    · rw [hf] at h
      simp at h
      subst h
      have := ih hf
      exact ⟨by omega, this.2.1, this.2.2⟩

end DiskFS

namespace DiskFS

theorem loadLoop_fields (d : Disk) :
    ∀ (i : Nat) (bm : BitmapManager) (start : Int) (c r : Nat),
      ((bm.loadLoop d start i c r).1).total_bits = bm.total_bits ∧
      ((bm.loadLoop d start i c r).1).inited = bm.inited ∧
      ((bm.loadLoop d start i c r).1).free_bits_count = bm.free_bits_count := by
  intro i
  induction i with
  | zero => intro bm start c r; exact ⟨rfl, rfl, rfl⟩
  | succ i ih =>
    intro bm start c r
    unfold BitmapManager.loadLoop
    rcases d.read_block start with _ | buf
    · exact ⟨rfl, rfl, rfl⟩
    · simp only
      by_cases hc : min BLOCK_SIZE r = 0
      · simp [hc]
      · simp only [hc, if_false]
        exact ih _ _ _ _

theorem consistent_alloc_aux (bm : BitmapManager) (v : Nat)
    (ht : 0 ≤ bm.total_bits)
    (hf : bm.free_bits_count = ((List.range bm.total_bits.toNat).countP (fun b => ! bm.getBit b) : Int))
    (hvN : v < bm.total_bits.toNat) (hpvb : bm.getBit v = false) :
    ({ bm.set_bit (v : Int) with free_bits_count := bm.free_bits_count - 1 } : BitmapManager).Consistent := by
  have htotset : (bm.set_bit (v : Int)).total_bits = bm.total_bits := by
    unfold BitmapManager.set_bit
    by_cases hv : bm.is_valid_bit (v : Int) <;> simp [hv]
  have hvalid : bm.is_valid_bit (v : Int) = true := by
    simp [BitmapManager.is_valid_bit]
    omega
  have hother : ∀ j : Nat, j ≠ v → ((bm.set_bit (v : Int)).getBit j) = bm.getBit j := by
    intro j hj
    exact getBit_set_bit_other bm _ j (by simpa using hj)
  have hself : (bm.set_bit (v : Int)).getBit v = true := by
    have := getBit_set_bit_self bm (v : Int) hvalid
    simpa using this
  have hcnt := countP_range_update bm.total_bits.toNat
    (fun j => ! bm.getBit j) (fun j => ! (bm.set_bit (v : Int)).getBit j) v hvN
    (by intro j hj; simp [hother j hj])
  simp only [hpvb, hself] at hcnt
  simp at hcnt
  constructor
  · show 0 ≤ (bm.set_bit (v : Int)).total_bits
    omega
  · show bm.free_bits_count - 1 =
      (((List.range (bm.set_bit (v : Int)).total_bits.toNat).countP
        (fun b => ! (bm.set_bit (v : Int)).getBit b)) : Int)
    rw [htotset]
    omega

theorem consistent_alloc (bm : BitmapManager) (h : bm.Consistent) :
    bm.allocate_bit.1.Consistent := by
  obtain ⟨ht, hf⟩ := h
  unfold BitmapManager.allocate_bit
  rcases hcb : bm.check_inited with _ | _
  · simp only [hcb, if_pos]
    exact ⟨ht, hf⟩
  · simp only [hcb, Bool.true_eq_false, if_false]
    by_cases hm1 : bm.find_free_bit = -1
    · simp only [hm1, if_pos]
      exact ⟨ht, hf⟩
    · simp only [hm1, if_neg, if_false]
      have hfind : ∃ v : Nat, (List.range bm.total_bits.toNat).find? (fun x => ! bm.getBit x) = some v ∧
          bm.find_free_bit = (v : Int) := by
        unfold BitmapManager.find_free_bit at hm1 ⊢
        by_cases h2 : bm.free_bits_count = 0 ∨ bm.inited = false
        · simp [h2] at hm1
        · simp only [h2, if_false] at hm1 ⊢
          rcases hf2 : (List.range bm.total_bits.toNat).find? (fun x => ! bm.getBit x) with _ | v
          · rw [hf2] at hm1; simp at hm1
          · exact ⟨v, rfl, rfl⟩
      obtain ⟨v, hfind, hbit⟩ := hfind
      obtain ⟨hvN, hpv, _⟩ := find?_range_some hfind
      rw [hbit]
      exact consistent_alloc_aux bm v ht hf hvN (by simpa using hpv)

end DiskFS

namespace DiskFS

theorem consistent_free_aux (bm : BitmapManager) (bit : Int)
    (ht : 0 ≤ bm.total_bits)
    (hf : bm.free_bits_count = ((List.range bm.total_bits.toNat).countP (fun b => ! bm.getBit b) : Int))
    (hvalid : bm.is_valid_bit bit = true) (hset : bm.getBit bit.toNat = true) :
    ({ bm.clear_bit bit with free_bits_count := bm.free_bits_count + 1 } : BitmapManager).Consistent := by
  have hb0 : 0 ≤ bit := by
    simp [BitmapManager.is_valid_bit] at hvalid; exact hvalid.1
  have hbN : bit.toNat < bm.total_bits.toNat := by
    simp [BitmapManager.is_valid_bit] at hvalid; omega
  have htot : (bm.clear_bit bit).total_bits = bm.total_bits := by
    unfold BitmapManager.clear_bit
    by_cases hv : bm.is_valid_bit bit <;> simp [hv]
  have hother : ∀ j : Nat, j ≠ bit.toNat → ((bm.clear_bit bit).getBit j) = bm.getBit j :=
    fun j hj => getBit_clear_bit_other bm _ j hj
  have hself : (bm.clear_bit bit).getBit bit.toNat = false :=
    getBit_clear_bit_self bm bit hvalid
  have hcnt := countP_range_update bm.total_bits.toNat
    (fun j => ! bm.getBit j) (fun j => ! (bm.clear_bit bit).getBit j) bit.toNat hbN
    (by intro j hj; simp [hother j hj])
  simp only [hset, hself] at hcnt
  simp at hcnt
  constructor
  · show 0 ≤ (bm.clear_bit bit).total_bits
    omega
  · show bm.free_bits_count + 1 =
      (((List.range (bm.clear_bit bit).total_bits.toNat).countP
        (fun b => ! (bm.clear_bit bit).getBit b)) : Int)
    rw [htot]
    omega

theorem consistent_free (bm : BitmapManager) (bit : Int) (h : bm.Consistent) :
    (bm.free_bit bit).1.Consistent := by
  obtain ⟨ht, hf⟩ := h
  unfold BitmapManager.free_bit
  by_cases hc : bm.check_inited = false ∨ bm.is_valid_bit bit = false
  · simp only [hc, if_pos]
    exact ⟨ht, hf⟩
  · simp only [hc, if_neg, if_false]
    push_neg at hc
    have hvalid : bm.is_valid_bit bit = true := by
      rcases hc with ⟨_, h2⟩
      revert h2; cases bm.is_valid_bit bit <;> simp
    rcases hg : bm.getBit bit.toNat with _ | _
    · simp only [hg, if_neg, Bool.false_eq_true, if_false]
      exact ⟨ht, hf⟩
    · simp only [hg, if_pos]
      exact consistent_free_aux bm bit ht hf hvalid hg

theorem consistent_of_zero_data (x : BitmapManager)
    (hdata : x.bitmap_data = fun _ => 0)
    (hfree : x.free_bits_count = x.total_bits) (hpos : 0 ≤ x.total_bits) :
    x.Consistent := by
  refine ⟨hpos, ?_⟩
  unfold BitmapManager.countFreeBits
  rw [List.countP_eq_length.2 (by intro a _; simp [BitmapManager.getBit, hdata, Nat.zero_testBit])]
  simp
  omega

theorem consistent_clear (bm : BitmapManager) (h : bm.Consistent) :
    bm.clear_all.Consistent := by
  obtain ⟨ht, hf⟩ := h
  unfold BitmapManager.clear_all
  rcases hcb : bm.check_inited with _ | _
  · simp only [hcb, Bool.false_eq_true, if_false]
    exact ⟨ht, hf⟩
  · simp only [hcb, if_pos]
    exact consistent_of_zero_data _ rfl rfl ht

theorem consistent_recalc (bm : BitmapManager)
    (ht : 0 ≤ bm.total_bits) (hinit : bm.inited = true) :
    bm.recalculate_free_bits.Consistent := by
  unfold BitmapManager.recalculate_free_bits
  by_cases hc : bm.inited = false ∨ bm.total_bits ≤ 0
  · simp only [hc, if_pos]
    rcases hc with h1 | h1
    · rw [hinit] at h1; cases h1
    · constructor
      · exact ht
      · show (0 : Int) = (((List.range bm.total_bits.toNat).countP
          (fun b => ! bm.getBit b)) : Int)
        rw [show bm.total_bits.toNat = 0 by omega]
        simp
  · simp only [hc, if_neg, if_false]
    exact ⟨ht, rfl⟩

theorem consistent_load (bm : BitmapManager) (d : Disk) (s n : Int)
    (h : bm.Consistent) (hok : (bm.load_from_disk d s n).2 = true) :
    (bm.load_from_disk d s n).1.Consistent := by
  obtain ⟨ht, _⟩ := h
  unfold BitmapManager.load_from_disk at hok ⊢
  by_cases hc : bm.check_inited = false
  · simp [hc] at hok
  · simp only [hc, if_neg, if_false] at hok ⊢
    have hinit : bm.inited = true := by
      unfold BitmapManager.check_inited at hc
      revert hc; cases bm.inited <;> simp
    rcases hl : ({ bm with start_block := s, block_count := n }
        : BitmapManager).loadLoop d s n.toNat 0 bm.bitmap_size with ⟨bm2, ok⟩
    simp only [hl] at hok ⊢
    have hfields := loadLoop_fields d n.toNat
      ({ bm with start_block := s, block_count := n } : BitmapManager) s 0 bm.bitmap_size
    rw [hl] at hfields
    rcases ok with _ | _
    · simp at hok
    · refine consistent_recalc bm2 ?_ ?_
      · have := hfields.1; simp at this; omega
      · have := hfields.2.1; simp at this; simp [this, hinit]

end DiskFS

namespace DiskFS

theorem consistent_construct (size : Int) (h : 0 ≤ size) :
    (BitmapManager.construct size).Consistent := by
  unfold BitmapManager.construct
  by_cases hs : 0 < size
  · simp only [hs, if_pos]
    exact consistent_of_zero_data _ rfl rfl h
  · simp only [hs, if_neg, if_false]
    exact consistent_of_zero_data _ rfl rfl h

theorem BReach_consistent {bm : BitmapManager} (h : BReach bm) : bm.Consistent := by
  induction h with
  | construct size hs => exact consistent_construct size hs
  | alloc _ ih => exact consistent_alloc _ ih
  | free bit _ ih => exact consistent_free _ bit ih
  | clear _ ih => exact consistent_clear _ ih
  | load d s n _ hok ih => exact consistent_load _ d s n ih hok

/-- **C4.** In every state of a `BitmapManager` reached through
construction (with the nonnegative capacities the program passes),
`allocate_bit`, `free_bit`, `clear_all` and *successful*
`load_from_disk` calls, the cached `free_bits_count` equals the number
of zero bits stored in the array, and therefore
`get_total_bits = get_free_bits + get_used_bits`.  (A `load_from_disk`
that fails mid-copy can leave the counter stale: see
`c4_counterexample`.) -/
theorem c4_bitmap_counter (bm : BitmapManager) (h : BReach bm) :
    bm.free_bits_count = (bm.countFreeBits : Int) ∧
    bm.get_total_bits = bm.get_free_bits + bm.get_used_bits := by
  refine ⟨(BReach_consistent h).2, ?_⟩
  unfold BitmapManager.get_total_bits BitmapManager.get_free_bits BitmapManager.get_used_bits
  ring

/-- Witness for C4 at a concrete reachable state. -/
theorem c4_witness :
    (BitmapManager.construct 8).allocate_bit.1.free_bits_count =
      ((BitmapManager.construct 8).allocate_bit.1.countFreeBits : Int) :=
  (c4_bitmap_counter _ (BReach.alloc (BReach.construct 8 (by norm_num)))).1

/-- **C4, counterexample.**  The claim as stated ranges over *all*
`load_from_disk` calls.  Allocating one bit of a fresh 8-bit map and
then loading from a one-block disk with `num_blocks = 2` fails after
the first block was already copied over the array: the counter stays 7
while the array holds 8 zero bits. -/
theorem c4_counterexample :
    (((BitmapManager.construct 8).allocate_bit.1.load_from_disk
        c4Disk 0 2).1.free_bits_count ≠
      (((BitmapManager.construct 8).allocate_bit.1.load_from_disk
        c4Disk 0 2).1.countFreeBits : Int)) ∧
    ((BitmapManager.construct 8).allocate_bit.1.load_from_disk c4Disk 0 2).2 = false := by
  constructor
  · decide
  · decide

theorem allocate_inode_bit {im : InodeManager} {d : Disk} {now a : Int}
    (h : (im.allocate_inode d now).2.2 = some a) :
    im.inode_bitmap.allocate_bit.2 = some a := by
  unfold InodeManager.allocate_inode at h
  split at h
  · simp at h
  · split at h
    · simp at h
    · rename_i ib n heq
      rw [heq]
      dsimp only at h
      split at h
      · simp at h
      · split at h
        · simp at h
        · simp only at h
          simpa using h

/-- **C5.** `allocate_bit` is first-fit: a returned bit is free in the
stored array and every smaller index is allocated; on an all-free
bitmap (a freshly formatted image) the first allocation returns bit 0,
and consequently `allocate_inode` — which `ensure_root_directory` uses
to allocate the root — can only hand out inode 0 there. -/
theorem c5_allocate_first_fit (bm : BitmapManager) (h : bm.Consistent) :
    (∀ b : Int, bm.allocate_bit.2 = some b →
        0 ≤ b ∧ b < bm.total_bits ∧ bm.getBit b.toNat = false ∧
        ∀ j : Nat, (j : Int) < b → bm.getBit j = true) ∧
    (bm.check_inited = true → 0 < bm.total_bits →
      (∀ j : Nat, j < bm.total_bits.toNat → bm.getBit j = false) →
      bm.allocate_bit.2 = some 0) ∧
    (∀ (im : InodeManager) (d : Disk) (now a : Int),
      im.inode_bitmap = bm →
      (∀ j : Nat, j < bm.total_bits.toNat → bm.getBit j = false) →
      (im.allocate_inode d now).2.2 = some a → a = 0) := by
  obtain ⟨ht, hf⟩ := h
  have main : ∀ b : Int, bm.allocate_bit.2 = some b →
      0 ≤ b ∧ b < bm.total_bits ∧ bm.getBit b.toNat = false ∧
      ∀ j : Nat, (j : Int) < b → bm.getBit j = true := by
    intro b hb
    unfold BitmapManager.allocate_bit at hb
    rcases hcb : bm.check_inited with _ | _
    · rw [hcb] at hb; simp at hb
    · rw [hcb] at hb
      simp only [Bool.true_eq_false, if_false] at hb
      by_cases hm1 : bm.find_free_bit = -1
      · rw [if_pos hm1] at hb; simp at hb
      · rw [if_neg hm1] at hb
        simp only [Option.some.injEq] at hb
        -- b is the find result
        have hbv : bm.find_free_bit = b := by
          simpa using hb
        unfold BitmapManager.find_free_bit at hbv hm1
        by_cases h2 : bm.free_bits_count = 0 ∨ bm.inited = false
        · simp [h2] at hbv hm1
        · simp only [h2, if_false] at hbv hm1
          rcases hf2 : (List.range bm.total_bits.toNat).find? (fun x => ! bm.getBit x) with _ | v
          · rw [hf2] at hm1; simp at hm1
          · rw [hf2] at hbv
            obtain ⟨hvN, hpv, hmin⟩ := find?_range_some hf2
            have hbv2 : (v : Int) = b := hbv
            subst hbv2
            refine ⟨by omega, by omega, by simpa using hpv, ?_⟩
            intro j hj
            have := hmin j (by omega)
            simpa using this
  refine ⟨main, ?_, ?_⟩
  · intro hinit hpos hfree
    unfold BitmapManager.allocate_bit
    rw [hinit]
    simp only [Bool.true_eq_false, if_false]
    have hcount : bm.countFreeBits = bm.total_bits.toNat := by
      unfold BitmapManager.countFreeBits
      rw [List.countP_eq_length.2 (by
        intro a ha
        simp only [List.mem_range] at ha
        simp [hfree a ha])]
      simp
    have hfc : bm.free_bits_count ≠ 0 := by
      rw [hf, hcount]; omega
    have hi : bm.inited = true := by
      unfold BitmapManager.check_inited at hinit
      revert hinit; cases bm.inited <;> simp
    obtain ⟨k, hk⟩ : ∃ k, bm.total_bits.toNat = k + 1 := ⟨bm.total_bits.toNat - 1, by omega⟩
    have hfind : bm.find_free_bit = 0 := by
      unfold BitmapManager.find_free_bit
      rw [if_neg (by simp [hfc, hi])]
      rw [hk, List.range_succ_eq_map, List.find?_cons_of_pos _ (by simp [hfree 0 (by omega)])]
      simp
    rw [hfind]
    simp
  · intro im d now a him hfree hsome
    have hb := allocate_inode_bit hsome
    rw [him] at hb
    obtain ⟨h0, hlt, hfreebit, hmin⟩ := main a hb
    by_contra hne
    have := hmin 0 (by omega)
    rw [hfree 0 (by omega)] at this
    cases this

end DiskFS

namespace DiskFS

/-- Witness for C5 on a fresh 8-bit bitmap: the first allocation is bit 0. -/
theorem c5_witness : (BitmapManager.construct 8).allocate_bit.2 = some 0 :=
  (c5_allocate_first_fit _ ⟨by decide, by decide⟩).2.1 (by decide) (by decide)
    (by decide)

end DiskFS

namespace DiskFS

theorem collapseSlashes_sublist (l : List Char) : (collapseSlashes l).Sublist l := by
  induction l using collapseSlashes.induct with
  | case1 => simp [collapseSlashes]
  | case2 a => simp [collapseSlashes]
  | case3 a b rest h ih =>
    rw [collapseSlashes, if_pos h]
    exact ih.trans (List.Sublist.cons₂ a (List.sublist_cons_self _ _))
  | case4 a b rest h ih =>
    rw [collapseSlashes, if_neg h]
    exact List.Sublist.cons₂ a ih

theorem collapseSlashes_head (l : List Char) : (collapseSlashes l).head? = l.head? := by
  induction l using collapseSlashes.induct with
  | case1 => rw [collapseSlashes]
  | case2 a => rw [collapseSlashes]
  | case3 a b rest h ih => rw [collapseSlashes, if_pos h, ih]; simp
  | case4 a b rest h ih => rw [collapseSlashes, if_neg h]; simp

theorem collapseSlashes_chain (l : List Char) :
    List.Chain' (fun a b => ¬(a = '/' ∧ b = '/')) (collapseSlashes l) := by
  induction l using collapseSlashes.induct with
  | case1 => simp [collapseSlashes]
  | case2 a => simp [collapseSlashes]
  | case3 a b rest h ih => rw [collapseSlashes, if_pos h]; exact ih
  | case4 a b rest h ih =>
    rw [collapseSlashes, if_neg h]
    rw [List.chain'_cons']
    refine ⟨?_, ih⟩
    intro y hy
    rw [collapseSlashes_head] at hy
    simp only [List.head?_cons, Option.mem_def, Option.some.injEq] at hy
    subst hy
    exact h

theorem collapseSlashes_eq_self {l : List Char}
    (h : List.Chain' (fun a b => ¬(a = '/' ∧ b = '/')) l) : collapseSlashes l = l := by
  induction l using collapseSlashes.induct with
  | case1 => rw [collapseSlashes]
  | case2 a => rw [collapseSlashes]
  | case3 a b rest hab ih =>
    exfalso
    rw [List.chain'_cons] at h
    exact h.1 hab
  | case4 a b rest hab ih =>
    rw [collapseSlashes, if_neg hab, ih (List.Chain'.tail h)]

end DiskFS

namespace DiskFS

theorem normalize_path_chars (p : List Char) :
    ('\\' ∉ PathUtils.normalize_path p) ∧
    List.Chain' (fun a b => ¬(a = '/' ∧ b = '/')) (PathUtils.normalize_path p) ∧
    ((PathUtils.normalize_path p).getLast? = some '/' →
      PathUtils.normalize_path p = ['/']) := by
  unfold PathUtils.normalize_path
  by_cases hp : p = []
  · simp [hp]
  · rw [if_neg hp]
    dsimp only
    set r := p.map (fun c => if c = '\\' then '/' else c) with hr
    set u := collapseSlashes r with hu
    have hnb : '\\' ∉ u := by
      intro hmem
      rw [hu] at hmem
      have := (collapseSlashes_sublist r).mem hmem
      rw [hr] at this
      simp only [List.mem_map] at this
      obtain ⟨c, _, hc⟩ := this
      by_cases h : c = '\\' <;> simp [h] at hc
    have hch : List.Chain' (fun a b => ¬(a = '/' ∧ b = '/')) u := by
      rw [hu]; exact collapseSlashes_chain r
    by_cases hcond : 1 < u.length ∧ u.getLast? = some '/'
    · rw [if_pos hcond]
      obtain ⟨hlen, hlast⟩ := hcond
      obtain ⟨v, hv⟩ := List.getLast?_eq_some_iff.1 hlast
      refine ⟨?_, ?_, ?_⟩
      · intro hmem
        exact hnb ((List.dropLast_sublist u).mem hmem)
      · exact hch.infix ⟨[], ['/'], by rw [hv, List.dropLast_concat]; simp⟩
      · intro hlast2
        exfalso
        obtain ⟨w, hw⟩ := List.getLast?_eq_some_iff.1 hlast2
        rw [hv, List.dropLast_concat] at hw
        rw [hv, hw] at hch
        have h2 := (List.chain'_append.1 hch).2.2
        have h3 := h2 '/' (by simp [List.getLast?_concat]) '/' (by simp)
        exact h3 ⟨rfl, rfl⟩
    · rw [if_neg hcond]
      refine ⟨hnb, hch, ?_⟩
      intro hlast
      have hne : u ≠ [] := by
        intro h; rw [h] at hlast; simp at hlast
      have hlen : ¬ 1 < u.length := fun h => hcond ⟨h, hlast⟩
      have h1 : u.length = 1 := by
        have := List.length_pos.2 hne
        omega
      obtain ⟨c, hc⟩ := List.length_eq_one.1 h1
      rw [hc] at hlast ⊢
      simp at hlast
      rw [hlast]

theorem normalize_path_idem (p : List Char) :
    PathUtils.normalize_path (PathUtils.normalize_path p) =
      PathUtils.normalize_path p := by
  obtain ⟨hnb, hch, htr⟩ := normalize_path_chars p
  set q := PathUtils.normalize_path p with hq
  unfold PathUtils.normalize_path
  by_cases hqe : q = []
  · rw [if_pos hqe, hqe]
  · rw [if_neg hqe]
    have hmap : q.map (fun c => if c = '\\' then '/' else c) = q := by
      rw [List.map_congr_left (g := id), List.map_id]
      intro c hc
      have : c ≠ '\\' := fun h => hnb (h ▸ hc)
      simp [this]
    simp only [hmap, collapseSlashes_eq_self hch]
    by_cases hcond : 1 < q.length ∧ q.getLast? = some '/'
    · exfalso
      have := htr hcond.2
      rw [this] at hcond
      simp at hcond
    · rw [if_neg hcond]

/-- **C10.** `normalize_path` is idempotent, its output contains no
backslash and no two consecutive `/` characters, and it ends with `/`
only when the whole output is `"/"`. -/
theorem c10_normalize_path (p : List Char) :
    PathUtils.normalize_path (PathUtils.normalize_path p) =
      PathUtils.normalize_path p ∧
    ('\\' ∉ PathUtils.normalize_path p) ∧
    List.Chain' (fun a b => ¬(a = '/' ∧ b = '/')) (PathUtils.normalize_path p) ∧
    ((PathUtils.normalize_path p).getLast? = some '/' →
      PathUtils.normalize_path p = ['/']) :=
  ⟨normalize_path_idem p, normalize_path_chars p⟩

end DiskFS

namespace DiskFS

/-- **C9.** For a mounted filesystem with an open descriptor whose
inode is readable, `seek_file fd pos` succeeds iff `0 ≤ pos ≤ size`;
on success the only change is the handle's position, and on any
failure (including a closed descriptor) the state is unchanged. -/
theorem c9_seek_file (fs : FS) (fd pos : Int) (desc : FileDescriptor) (inode : Inode)
    (hm : fs.mounted = true)
    (hfd : fs.get_file_descriptor fd = some desc)
    (hino : fs.im.read_inode fs.disk desc.inode_num = some inode) :
    ((fs.seek_file fd pos).2 = true ↔ 0 ≤ pos ∧ pos ≤ inode.size) ∧
    ((fs.seek_file fd pos).2 = true →
      (fs.seek_file fd pos).1 = fs.setPosition fd pos) ∧
    ((fs.seek_file fd pos).2 = false → (fs.seek_file fd pos).1 = fs) ∧
    (∀ fd' pos' : Int, fs.get_file_descriptor fd' = none →
      fs.seek_file fd' pos' = (fs, false)) := by
  unfold FS.seek_file FS.seekFileCore
  rw [hm]
  simp only [Bool.true_eq_false, if_false, hfd, hino]
  by_cases h : pos < 0 ∨ inode.size < pos
  · rw [if_pos h]
    refine ⟨by simp; omega, by simp, by simp, ?_⟩
    intro fd' pos' hnone
    simp only [hnone]
  · rw [if_neg h]
    refine ⟨by simp; omega, by simp, by simp, ?_⟩
    intro fd' pos' hnone
    simp only [hnone]

/-- Witness for C9: on `wFS`, seeking fd 3 to position 0 succeeds and
only moves the handle. -/
theorem c9_witness :
    (wFS.seek_file 3 0).2 = true ∧ (wFS.seek_file 3 0).1 = wFS.setPosition 3 0 := by
  have h := c9_seek_file wFS 3 0 wDesc wInode (by decide) (by decide) (by decide)
  exact ⟨h.1.2 ⟨by decide, by decide⟩, h.2.1 (h.1.2 ⟨by decide, by decide⟩)⟩

end DiskFS

namespace DiskFS

/-- **C6.** Mounting an image whose block 0 does not carry the magic
number `0x4D494E44` returns `false` and leaves `mounted` and
`disk_open` as they were; conversely a successful mount implies the
image's superblock magic equals `0x4D494E44`. -/
theorem c6_mount_magic (fs : FS) (img : Disk)
    (hmagic : ∀ buf, img.read_block 0 = some buf →
      (decodeSuperblock (readBytes buf 0 sizeofSuperblock)).magic_number ≠ MAGIC_NUMBER) :
    ((fs.mount img).2 = false ∧ (fs.mount img).1.mounted = fs.mounted ∧
      (fs.mount img).1.disk_open = fs.disk_open) ∧
    (∀ (fs' : FS) (img' : Disk), (fs'.mount img').2 = true →
      ∃ buf, img'.read_block 0 = some buf ∧
        (decodeSuperblock (readBytes buf 0 sizeofSuperblock)).magic_number = MAGIC_NUMBER) := by
  constructor
  · unfold FS.mount
    by_cases hmt : fs.mounted
    · simp [hmt]
    · rw [if_neg hmt]
      by_cases hdo : fs.disk_open
      · simp [hdo]
      · rw [if_neg hdo]
        simp only [Bool.not_eq_true] at hmt hdo
        dsimp only
        unfold FS.initialize_after_open FS.load_superblock
        rcases hrb : Disk.read_block img 0 with _ | buf
        · simp only [hrb]
          simp [hmt, hdo]
        · simp only [hrb]
          rw [if_pos (hmagic buf hrb)]
          simp [hmt, hdo]
  · intro fs' img' hok
    unfold FS.mount at hok
    by_cases hmt : fs'.mounted
    · simp [hmt] at hok
    · rw [if_neg hmt] at hok
      by_cases hdo : fs'.disk_open
      · simp [hdo] at hok
      · rw [if_neg hdo] at hok
        dsimp only at hok
        unfold FS.initialize_after_open FS.load_superblock at hok
        rcases hrb : Disk.read_block img' 0 with _ | buf
        · simp [hrb] at hok
        · simp only [hrb] at hok
          refine ⟨buf, rfl, ?_⟩
          by_contra hne
          rw [if_pos hne] at hok
          simp at hok

/-- Witness for C6: mounting the all-zero image `wDisk` (magic 0)
fails and leaves a fresh filesystem unmounted. -/
theorem c6_witness :
    ((FS.construct 0).mount wDisk).2 = false ∧
    ((FS.construct 0).mount wDisk).1.mounted = false := by
  have h := c6_mount_magic (FS.construct 0) wDisk (fun buf hbuf => by
    have hz : buf = zeroBlock := by
      have h0 : wDisk.read_block 0 = some zeroBlock := rfl
      rw [h0] at hbuf
      exact (Option.some.inj hbuf).symm
    rw [hz]
    decide)
  exact ⟨h.1.1, h.1.2.1.trans rfl⟩

end DiskFS

namespace DiskFS

theorem read_inode_write_inode_self (im : InodeManager) (d d' : Disk) (n : Int) (I : Inode)
    (hWF : InodeWF I) (hw : im.write_inode d n I = some d') :
    im.read_inode d' n = some I := by
  unfold InodeManager.write_inode at hw
  unfold InodeManager.read_inode
  by_cases hci : im.check_inited = false
  · rw [if_pos hci] at hw; cases hw
  · rw [if_neg hci] at hw
    rw [if_neg hci]
    rcases hp : im.get_inode_position n with _ | ⟨bn, off⟩
    · simp [hp] at hw
    · simp only [hp] at hw ⊢
      rcases hrb : d.read_block bn with _ | buf
      · simp [hrb] at hw
      · simp only [hrb] at hw
        unfold Disk.write_block at hw
        by_cases hv : 0 ≤ bn ∧ bn < d.total_blocks
        · rw [if_pos hv] at hw
          have hd' := Option.some.inj hw
          have hrb' : d'.read_block bn =
              some (writeBytes buf off.toNat (encodeInode I)) := by
            rw [← hd']
            unfold Disk.read_block
            rw [if_pos (by exact hv)]
            simp
          simp only [hrb']
          rw [show sizeofInode = (encodeInode I).length from (encodeInode_length I).symm,
            readBytes_writeBytes_self, decodeInode_encodeInode I hWF]
        · rw [if_neg hv] at hw; cases hw

theorem read_inode_write_inode_other (im : InodeManager) (d d' : Disk) (m n : Int) (J : Inode)
    (hw : im.write_inode d m J = some d') (hne : n ≠ m) :
    im.read_inode d' n = im.read_inode d n := by
  unfold InodeManager.write_inode at hw
  unfold InodeManager.read_inode
  by_cases hci : im.check_inited = false
  · simp only [if_pos hci]
  · rw [if_neg hci] at hw
    simp only [if_neg hci]
    rcases hpm : im.get_inode_position m with _ | ⟨bm2, offm⟩
    · simp [hpm] at hw
    · simp only [hpm] at hw
      rcases hrbm : d.read_block bm2 with _ | bufm
      · simp [hrbm] at hw
      · simp only [hrbm] at hw
        unfold Disk.write_block at hw
        by_cases hv : 0 ≤ bm2 ∧ bm2 < d.total_blocks
        · rw [if_pos hv] at hw
          have hd' := Option.some.inj hw
          rcases hpn : im.get_inode_position n with _ | ⟨bn, offn⟩
          · rfl
          · simp only
            by_cases hvn : 0 ≤ bn ∧ bn < d.total_blocks
            · have hrd : d.read_block bn = some (d.blocks bn.toNat) := by
                unfold Disk.read_block; rw [if_pos hvn]
              have hrd' : d'.read_block bn =
                  some (if bn.toNat = bm2.toNat
                        then writeBytes bufm offm.toNat (encodeInode J)
                        else d.blocks bn.toNat) := by
                rw [← hd']
                unfold Disk.read_block
                rw [if_pos (by exact hvn)]
              simp only [hrd, hrd']
              by_cases hbe : bn.toNat = bm2.toNat
              · rw [if_pos hbe]
                have hbufm : bufm = d.blocks bm2.toNat := by
                  unfold Disk.read_block at hrbm
                  rw [if_pos hv] at hrbm
                  exact (Option.some.inj hrbm).symm
                unfold InodeManager.get_inode_position at hpn hpm
                by_cases hn0 : n < 0 ∨ im.get_total_inodes ≤ n
                · rw [if_pos hn0] at hpn; cases hpn
                · rw [if_neg hn0] at hpn
                  by_cases hm0 : m < 0 ∨ im.get_total_inodes ≤ m
                  · rw [if_pos hm0] at hpm; cases hpm
                  · rw [if_neg hm0] at hpm
                    simp only [Option.some.injEq, Prod.mk.injEq] at hpn hpm
                    obtain ⟨hbn, hoffn⟩ := hpn
                    obtain ⟨hbm, hoffm⟩ := hpm
                    have hn' : 0 ≤ n := by omega
                    have hm' : 0 ≤ m := by omega
                    have hip : (inodesPerBlock : Int) = 42 := by
                      norm_num [inodesPerBlock, BLOCK_SIZE, sizeofInode]
                    have hdiv : n.tdiv (inodesPerBlock : Int) = m.tdiv (inodesPerBlock : Int) := by
                      have hb : bn = bm2 := by omega
                      omega
                    rw [Int.tdiv_eq_ediv hn' (by rw [hip]; norm_num),
                      Int.tdiv_eq_ediv hm' (by rw [hip]; norm_num)] at hdiv
                    rw [Int.tmod_eq_emod hn' (by rw [hip]; norm_num)] at hoffn
                    rw [Int.tmod_eq_emod hm' (by rw [hip]; norm_num)] at hoffm
                    rw [hbufm, readBytes_writeBytes_disjoint, hbe]
                    rw [encodeInode_length]
                    rw [hip] at hdiv hoffn hoffm
                    have hsz : (sizeofInode : Int) = 96 := by norm_num [sizeofInode]
                    rw [hsz] at hoffn hoffm
                    have hsz2 : sizeofInode = 96 := by norm_num [sizeofInode]
                    rw [hsz2]
                    omega
              · rw [if_neg hbe]
            · have hrd : d.read_block bn = none := by
                unfold Disk.read_block; rw [if_neg hvn]
              have hrd' : d'.read_block bn = none := by
                rw [← hd']
                unfold Disk.read_block
                rw [if_neg (by exact hvn)]
              simp only [hrd, hrd']
        · rw [if_neg hv] at hw; cases hw

end DiskFS

namespace DiskFS

theorem read_inode_applyWrites (im : InodeManager) (n : Int) :
    ∀ (ws : List (Int × Inode)) (d d' : Disk),
      (∀ p ∈ ws, p.1 ≠ n) → im.applyWrites d ws = some d' →
      im.read_inode d' n = im.read_inode d n := by
  intro ws
  induction ws with
  | nil =>
    intro d d' h ha
    unfold InodeManager.applyWrites at ha
    rw [← Option.some.inj ha]
  | cons p rest ih =>
    intro d d' h ha
    obtain ⟨m, J⟩ := p
    unfold InodeManager.applyWrites at ha
    rcases hw : im.write_inode d m J with _ | d1
    · simp [hw] at ha
    · simp only [hw] at ha
      rw [ih d1 d' (fun q hq => h q (List.mem_cons_of_mem _ hq)) ha]
      refine read_inode_write_inode_other im d d1 m n J hw ?_
      have hm := h (m, J) (List.mem_cons_self _ _)
      simp only [ne_eq] at hm
      exact fun he => hm he.symm

/-- **C2.** `write_inode` is read-modify-write on a shared table
block: after a successful `write_inode n I` (with `I` of the
representable shape) and any further sequence of successful writes to
inode numbers `m ≠ n` — including neighbours in the same block —
`read_inode n` returns exactly `I`. -/
theorem c2_write_inode_isolation (im : InodeManager) (d d1 d2 : Disk) (n : Int) (I : Inode)
    (ws : List (Int × Inode)) (hWF : InodeWF I)
    (hw : im.write_inode d n I = some d1)
    (hws : ∀ p ∈ ws, p.1 ≠ n)
    (ha : im.applyWrites d1 ws = some d2) :
    im.read_inode d2 n = some I := by
  rw [read_inode_applyWrites im n ws d1 d2 hws ha]
  exact read_inode_write_inode_self im d d1 n I hWF hw

/-- Witness for C2: on `wDisk`, write inode 0, then write its
same-block neighbour inode 1; inode 0 reads back unchanged. -/
theorem c2_witness : wIM.read_inode c2d2 0 = some (init_new_inode 5) :=
  c2_write_inode_isolation wIM wDisk c2d1 c2d2 0 (init_new_inode 5)
    [(1, init_new_inode 7)]
    (by norm_num [InodeWF, IntFits, init_new_inode, List.mem_replicate])
    rfl (by decide) rfl

end DiskFS

namespace DiskFS

theorem readChunks_length (d : Disk) :
    ∀ (bs : List Int) (so rem : Nat),
      (∀ b ∈ bs, ∃ buf, d.read_block b = some buf) →
      so + rem ≤ bs.length * BLOCK_SIZE →
      ∃ l, readChunks d bs so rem = some l ∧ l.length = rem := by
  intro bs
  induction bs with
  | nil =>
    intro so rem _ hcov
    simp only [List.length_nil, Nat.zero_mul, Nat.le_zero] at hcov
    refine ⟨[], ?_, by simp; omega⟩
    unfold readChunks
    rfl
  | cons b rest ih =>
    intro so rem hread hcov
    have hBn : BLOCK_SIZE = 4096 := by norm_num [BLOCK_SIZE]
    rw [hBn] at hcov
    unfold readChunks
    by_cases hr0 : rem = 0
    · exact ⟨[], by rw [if_pos hr0], by simp [hr0]⟩
    · rw [if_neg hr0]
      obtain ⟨buf, hbuf⟩ := hread b (List.mem_cons_self _ _)
      simp only [hbuf]
      obtain ⟨tail, htail, hlen⟩ := ih 0 (rem - min (BLOCK_SIZE - so) rem)
        (fun q hq => hread q (List.mem_cons_of_mem _ hq))
        (by simp only [List.length_cons] at hcov; rw [hBn]; omega)
      simp only [htail]
      refine ⟨_, rfl, ?_⟩
      rw [List.length_append, readBytes_length, hlen, hBn]
      omega

theorem read_data_from_blocks_length (d : Disk) (blocks : List Int) (offset size : Int)
    (hrd : ∀ b ∈ blocks, ∃ buf, d.read_block b = some buf)
    (hoff : 0 ≤ offset) (hsz : 0 ≤ size)
    (hcov : offset + size ≤ (blocks.length : Int) * (BLOCK_SIZE : Int))
    (hne : blocks ≠ []) :
    ∃ l, read_data_from_blocks d blocks offset size = some l ∧
      (l.length : Int) = size := by
  unfold read_data_from_blocks
  rw [if_neg hne]
  have hBn : BLOCK_SIZE = 4096 := by norm_num [BLOCK_SIZE]
  have hdiv : offset.tdiv (BLOCK_SIZE : Int) = offset / (BLOCK_SIZE : Int) :=
    Int.tdiv_eq_ediv hoff (by omega)
  have hmod : offset.tmod (BLOCK_SIZE : Int) = offset % (BLOCK_SIZE : Int) :=
    Int.tmod_eq_emod hoff (by omega)
  have hcov2 : (offset.tmod (BLOCK_SIZE : Int)).toNat + size.toNat ≤
      (blocks.drop (offset.tdiv (BLOCK_SIZE : Int)).toNat).length * BLOCK_SIZE := by
    rw [List.length_drop, hdiv, hmod, hBn]
    rw [hBn] at hcov
    push_cast at hcov ⊢
    omega
  obtain ⟨l, hl, hlen⟩ := readChunks_length d
    (blocks.drop (offset.tdiv (BLOCK_SIZE : Int)).toNat)
    (offset.tmod (BLOCK_SIZE : Int)).toNat size.toNat
    (fun q hq => hrd q (List.mem_of_mem_drop hq)) hcov2
  simp only [hl]
  refine ⟨l, ?_, by omega⟩
  rw [if_pos (by omega)]

end DiskFS

namespace DiskFS

theorem update_file_access_time_fds (fs : FS) (i : Int) :
    (fs.update_file_access_time i).file_descriptors = fs.file_descriptors := by
  unfold FS.update_file_access_time
  split
  · rfl
  · split <;> rfl

/-- **C7.** For a mounted filesystem and an open, readable descriptor
whose inode and block list are readable and whose size fits in the
listed blocks: `read_file` returns 0 and changes nothing at or past
EOF, and otherwise transfers exactly `min size (file size − offset)`
bytes and advances the handle by that amount. -/
theorem c7_read_clamp (fs : FS) (fd size : Int) (desc : FileDescriptor) (inode : Inode)
    (blocks : List Int)
    (hm : fs.mounted = true)
    (hfd : fs.get_file_descriptor fd = some desc)
    (hrm : desc.mode.land OPEN_MODE_READ ≠ 0)
    (hino : fs.im.read_inode fs.disk desc.inode_num = some inode)
    (hblocks : fs.im.get_data_blocks fs.disk desc.inode_num = some blocks)
    (hrd : ∀ b ∈ blocks, ∃ buf, fs.disk.read_block b = some buf)
    (hpos : 0 ≤ desc.position)
    (hsz : 0 ≤ size)
    (hcov : inode.size ≤ (blocks.length : Int) * (BLOCK_SIZE : Int)) :
    (inode.size ≤ desc.position → fs.read_file fd size = (fs, 0, [])) ∧
    (desc.position < inode.size →
      (fs.read_file fd size).2.1 = min size (inode.size - desc.position) ∧
      ((fs.read_file fd size).2.2.length : Int) = min size (inode.size - desc.position) ∧
      (fs.read_file fd size).1.file_descriptors fd =
        some { desc with position :=
            desc.position + min size (inode.size - desc.position) }) := by
  have hfd' : fs.file_descriptors fd = some desc := by
    unfold FS.get_file_descriptor at hfd
    rcases h : fs.file_descriptors fd with _ | d0
    · simp [h] at hfd
    · simp only [h] at hfd
      by_cases ho : d0.openFlag = true
      · rw [if_pos ho] at hfd
        rw [Option.some.inj hfd]
      · rw [if_neg ho] at hfd; cases hfd
  unfold FS.read_file FS.readFileCore
  rw [hm]
  simp only [Bool.true_eq_false, if_false, hfd, hino]
  rw [if_neg hrm]
  constructor
  · intro hle
    rw [if_pos hle]
  · intro hlt
    rw [if_neg (by omega)]
    simp only [hblocks]
    have hBp : (0 : Int) < (BLOCK_SIZE : Int) := by norm_num [BLOCK_SIZE]
    have hne : blocks ≠ [] := by
      intro h0
      rw [h0] at hcov
      simp at hcov
      omega
    obtain ⟨l, hl, hlen⟩ := read_data_from_blocks_length fs.disk blocks desc.position
      (min size (inode.size - desc.position)) hrd hpos (by omega) (by omega) hne
    simp only [hl]
    refine ⟨by trivial, hlen, ?_⟩
    rw [update_file_access_time_fds]
    unfold FS.setPosition
    simp [hfd']

set_option maxRecDepth 100000 in
/-- Witness for C7: on `wFS` (file size 0, offset 0) a 5-byte read
returns 0 and leaves the state unchanged. -/
theorem c7_witness : wFS.read_file 3 5 = (wFS, 0, []) :=
  (c7_read_clamp wFS 3 5 wDesc wInode [] (by decide) (by decide) (by decide)
    (by decide) (by decide) (fun b hb => absurd hb (List.not_mem_nil b))
    (by decide) (by decide) (by decide)).1 (by decide)

end DiskFS

namespace DiskFS

theorem allocFdLoop_free (m : Int → Option FileDescriptor) (fuel : Nat) (v : Int)
    (h : (m v).isSome = false) : allocFdLoop m (fuel + 1) v = some v := by
  unfold allocFdLoop
  rw [if_neg (by simp [h])]

theorem allocFdLoop_spec (m : Int → Option FileDescriptor) :
    ∀ (fuel : Nat) (v r : Int), 3 ≤ v → allocFdLoop m fuel v = some r →
      m r = none ∧ 3 ≤ r := by
  intro fuel
  induction fuel with
  | zero =>
    intro v r _ h
    unfold allocFdLoop at h
    cases h
  | succ fuel ih =>
    intro v r h3 h
    unfold allocFdLoop at h
    by_cases hs : (m v).isSome
    · rw [if_pos hs] at h
      refine ih _ r ?_ h
      by_cases hw : 1024 < v + 1
      · rw [if_pos hw]
      · rw [if_neg hw]; omega
    · rw [if_neg hs] at h
      rw [← Option.some.inj h]
      exact ⟨Option.not_isSome_iff_eq_none.1 hs, h3⟩

/-- **C8** (amended!).  A returned descriptor id is never an id already
present in the open-file table, and — whenever `next_fd ≥ 3`, as in
every reachable state — it is at least 3.  The claimed upper bound 1024
does not hold: see `c8_counterexample`, where the 1023rd allocation
from a fresh table returns 1025. -/
theorem c8_fd_allocator (fs : FS) (r : Int) (h3 : 3 ≤ fs.next_fd)
    (hr : fs.allocate_file_descriptor.2 = r) (hne : r ≠ -1) :
    fs.file_descriptors r = none ∧ 3 ≤ r := by
  unfold FS.allocate_file_descriptor at hr
  rcases hl : allocFdLoop fs.file_descriptors 2048 fs.next_fd with _ | v
  · rw [hl] at hr
    exact absurd hr.symm hne
  · rw [hl] at hr
    simp only at hr
    rw [← hr]
    exact allocFdLoop_spec fs.file_descriptors 2048 fs.next_fd v h3 hl

/-- Witness for C8: the first allocation on a fresh filesystem returns
fd 3, which is indeed absent from the table. -/
theorem c8_witness :
    (FS.construct 0).file_descriptors 3 = none ∧ (3 : Int) ≤ 3 :=
  c8_fd_allocator (FS.construct 0) 3 (by decide) (by decide) (by decide)

theorem c8Iter_spec : ∀ k : Nat, k ≤ 1022 →
    (c8Iter k).next_fd = 3 + (k : Int) ∧
    (∀ j : Int, ((c8Iter k).file_descriptors j).isSome = true ↔ 3 ≤ j ∧ j < 3 + (k : Int)) := by
  intro k
  induction k with
  | zero =>
    intro _
    constructor
    · rfl
    · intro j
      constructor
      · intro h; cases h
      · intro h; push_cast at h; omega
  | succ k ih =>
    intro hk
    obtain ⟨hn, hmap⟩ := ih (by omega)
    have hfree : ((c8Iter k).file_descriptors (3 + (k : Int))).isSome = false := by
      rcases h : ((c8Iter k).file_descriptors (3 + (k : Int))).isSome with _ | _
      · rfl
      · have := (hmap (3 + (k : Int))).1 h
        omega
    have hloop : allocFdLoop (c8Iter k).file_descriptors 2048 (c8Iter k).next_fd =
        some (3 + (k : Int)) := by
      rw [hn, show (2048 : Nat) = 2047 + 1 from rfl]
      exact allocFdLoop_free _ 2047 _ hfree
    have hstep : c8Iter (k + 1) =
        { c8Iter k with
            next_fd := 3 + (k : Int) + 1
            file_descriptors := fun j =>
              if j = 3 + (k : Int) then
                some { inode_num := 0, mode := 1, position := 0, openFlag := true }
              else (c8Iter k).file_descriptors j } := by
      show ((c8Iter k).allocate_fd_entry 0 1).1 = _
      unfold FS.allocate_fd_entry FS.allocate_file_descriptor
      simp only [hloop]
      rw [if_neg (by omega)]
    constructor
    · rw [hstep]
      push_cast
      ring
    · intro j
      rw [hstep]
      simp only
      by_cases hj : j = 3 + (k : Int)
      · rw [if_pos hj]
        subst hj
        constructor
        · intro _
          push_cast
          omega
        · intro _
          rfl
      · rw [if_neg hj]
        rw [hmap j]
        push_cast
        omega

theorem allocate_fd_of_loop (fs : FS) (v : Int)
    (h : allocFdLoop fs.file_descriptors 2048 fs.next_fd = some v) :
    fs.allocate_file_descriptor.2 = v := by
  unfold FS.allocate_file_descriptor
  rw [h]

/-- **C8, counterexample.**  After 1022 allocations on a fresh
filesystem the table holds ids 3..1024 and `next_fd = 1025`; the next
allocation returns 1025, outside the claimed range [3, 1024]. -/
theorem c8_counterexample :
    (c8Iter 1022).allocate_file_descriptor.2 = 1025 := by
  obtain ⟨hn, hmap⟩ := c8Iter_spec 1022 le_rfl
  have hfree : ((c8Iter 1022).file_descriptors 1025).isSome = false := by
    rcases h : ((c8Iter 1022).file_descriptors 1025).isSome with _ | _
    · rfl
    · have := (hmap 1025).1 h
      norm_num at this
  have h1025 : (3 : Int) + ((1022 : Nat) : Int) = 1025 := by norm_num
  have hloop : allocFdLoop (c8Iter 1022).file_descriptors 2048 (c8Iter 1022).next_fd =
      some 1025 := by
    rw [hn, h1025, show (2048 : Nat) = 2047 + 1 from rfl]
    exact allocFdLoop_free _ 2047 _ hfree
  exact allocate_fd_of_loop _ 1025 hloop

end DiskFS

namespace DiskFS

theorem free_bit_inited (bm : BitmapManager) (k : Int) :
    (bm.free_bit k).1.inited = bm.inited := by
  unfold BitmapManager.free_bit BitmapManager.clear_bit
  split
  · rfl
  · split
    · split <;> rfl
    · rfl

theorem free_bit_total (bm : BitmapManager) (k : Int) :
    (bm.free_bit k).1.total_bits = bm.total_bits := by
  unfold BitmapManager.free_bit BitmapManager.clear_bit
  split
  · rfl
  · split
    · split <;> rfl
    · rfl

theorem free_bit_valid (bm : BitmapManager) (k x : Int) :
    (bm.free_bit k).1.is_valid_bit x = bm.is_valid_bit x := by
  unfold BitmapManager.is_valid_bit
  rw [free_bit_total]

theorem free_bit_size (bm : BitmapManager) (k : Int) :
    (bm.free_bit k).1.bitmap_size = bm.bitmap_size := by
  unfold BitmapManager.free_bit BitmapManager.clear_bit
  split
  · rfl
  · split
    · split <;> rfl
    · rfl

theorem free_bit_check (bm : BitmapManager) (k : Int) :
    (bm.free_bit k).1.check_inited = bm.check_inited := by
  unfold BitmapManager.check_inited
  rw [free_bit_inited, free_bit_size]

theorem getBit_free_bit_self (bm : BitmapManager) (k : Int)
    (hi : bm.check_inited = true) (hv : bm.is_valid_bit k = true) :
    (bm.free_bit k).1.getBit k.toNat = false := by
  unfold BitmapManager.free_bit
  rw [if_neg (by simp [hi, hv])]
  by_cases hg : bm.getBit k.toNat = true
  · rw [if_pos hg]
    show (bm.clear_bit k).getBit k.toNat = false
    exact getBit_clear_bit_self bm k hv
  · rw [if_neg hg]
    simpa using hg

theorem getBit_free_bit_mono (bm : BitmapManager) (k : Int) (j : Nat)
    (h : bm.getBit j = false) : (bm.free_bit k).1.getBit j = false := by
  unfold BitmapManager.free_bit
  split
  · exact h
  · next hcond =>
    split
    · show (bm.clear_bit k).getBit j = false
      by_cases hj : j = k.toNat
      · subst hj
        exact getBit_clear_bit_self bm k (by
          rcases hv : bm.is_valid_bit k with _ | _
          · exact absurd (Or.inr hv) hcond
          · rfl)
      · rw [getBit_clear_bit_other bm k j hj]
        exact h
    · exact h

end DiskFS

namespace DiskFS

theorem directFold_check (start : Int) (l : List Int) (bm : BitmapManager) :
    (l.foldl (fun b p => if p ≠ 0 then (b.free_bit (p - start)).1 else b) bm).check_inited =
      bm.check_inited := by
  induction l generalizing bm with
  | nil => rfl
  | cons q rest ih =>
    rw [List.foldl_cons, ih]
    split
    · rw [free_bit_check]
    · rfl

theorem directFold_valid (start : Int) (l : List Int) (bm : BitmapManager) (x : Int) :
    (l.foldl (fun b p => if p ≠ 0 then (b.free_bit (p - start)).1 else b) bm).is_valid_bit x =
      bm.is_valid_bit x := by
  induction l generalizing bm with
  | nil => rfl
  | cons q rest ih =>
    rw [List.foldl_cons, ih]
    split
    · rw [free_bit_valid]
    · rfl

theorem directFold_mono (start : Int) (l : List Int) (bm : BitmapManager) (j : Nat)
    (h : bm.getBit j = false) :
    (l.foldl (fun b p => if p ≠ 0 then (b.free_bit (p - start)).1 else b) bm).getBit j =
      false := by
  induction l generalizing bm with
  | nil => exact h
  | cons q rest ih =>
    rw [List.foldl_cons]
    refine ih _ ?_
    split
    · exact getBit_free_bit_mono _ _ _ h
    · exact h

theorem directFold_self (start : Int) (l : List Int) (bm : BitmapManager) (p : Int)
    (hi : bm.check_inited = true) (hp : p ∈ l) (hp0 : p ≠ 0)
    (hv : bm.is_valid_bit (p - start) = true) :
    (l.foldl (fun b p => if p ≠ 0 then (b.free_bit (p - start)).1 else b) bm).getBit
      (p - start).toNat = false := by
  induction l generalizing bm with
  | nil => cases hp
  | cons q rest ih =>
    rw [List.foldl_cons]
    rcases List.mem_cons.1 hp with hq | hrest
    · subst hq
      rw [if_pos hp0]
      exact directFold_mono _ _ _ _ (getBit_free_bit_self bm _ hi hv)
    · refine ih _ ?_ hrest ?_
      · split
        · rw [free_bit_check]; exact hi
        · exact hi
      · split
        · rw [free_bit_valid]; exact hv
        · exact hv

theorem freeList_check (bm : BitmapManager) (start : Int) (l : List Int) :
    (freeList bm start l).check_inited = bm.check_inited := by
  unfold freeList
  induction l generalizing bm with
  | nil => rfl
  | cons q rest ih =>
    rw [List.foldl_cons, ih, free_bit_check]

theorem freeList_valid (bm : BitmapManager) (start : Int) (l : List Int) (x : Int) :
    (freeList bm start l).is_valid_bit x = bm.is_valid_bit x := by
  unfold freeList
  induction l generalizing bm with
  | nil => rfl
  | cons q rest ih =>
    rw [List.foldl_cons, ih, free_bit_valid]

theorem freeList_mono (bm : BitmapManager) (start : Int) (l : List Int) (j : Nat)
    (h : bm.getBit j = false) : (freeList bm start l).getBit j = false := by
  unfold freeList
  induction l generalizing bm with
  | nil => exact h
  | cons q rest ih =>
    rw [List.foldl_cons]
    exact ih _ (getBit_free_bit_mono _ _ _ h)

theorem freeList_self (bm : BitmapManager) (start : Int) (l : List Int) (x : Int)
    (hi : bm.check_inited = true) (hx : x ∈ l)
    (hv : bm.is_valid_bit (x - start) = true) :
    (freeList bm start l).getBit (x - start).toNat = false := by
  unfold freeList
  induction l generalizing bm with
  | nil => cases hx
  | cons q rest ih =>
    rw [List.foldl_cons]
    rcases List.mem_cons.1 hx with hq | hrest
    · subst hq
      exact freeList_mono _ _ _ _ (getBit_free_bit_self bm _ hi hv)
    · exact ih _ (by rw [free_bit_check]; exact hi) hrest (by rw [free_bit_valid]; exact hv)

end DiskFS

namespace DiskFS

theorem save_to_disk_getBit (bm : BitmapManager) (d : Disk) (s n : Int) (j : Nat) :
    (bm.save_to_disk d s n).1.getBit j = bm.getBit j := by
  unfold BitmapManager.save_to_disk
  split
  · rfl
  · rfl

theorem save_data_bitmap_getBit (im : InodeManager) (d : Disk) (j : Nat) :
    (im.save_data_bitmap d).1.data_bitmap.getBit j = im.data_bitmap.getBit j := by
  unfold InodeManager.save_data_bitmap
  rcases hs : im.data_bitmap.save_to_disk d im.layout.data_bitmap_start
    im.layout.data_bitmap_blocks with ⟨db, r⟩
  simp only [hs]
  have hdb : db = (im.data_bitmap.save_to_disk d im.layout.data_bitmap_start
      im.layout.data_bitmap_blocks).1 := by rw [hs]
  rw [hdb, save_to_disk_getBit]

theorem free_data_blocks_getBit (im : InodeManager) (d : Disk) (n : Int) (inode : Inode)
    (hci : im.check_inited = true) (hino : im.read_inode d n = some inode) (j : Nat) :
    (im.free_data_blocks d n).1.data_bitmap.getBit j =
      (im.free_all_data_blocks_for_inode d inode).1.data_bitmap.getBit j := by
  unfold InodeManager.free_data_blocks
  rw [if_neg (by simp [hci])]
  simp only [hino]
  split
  · rfl
  · next d1 hw =>
    split
    · next im2 heq =>
      have h2 : im2 = ((im.free_all_data_blocks_for_inode d inode).1.save_data_bitmap d1).1 := by
        rw [heq]
      rw [h2, save_data_bitmap_getBit]
    · next im2 d2 heq =>
      have h2 : im2 = ((im.free_all_data_blocks_for_inode d inode).1.save_data_bitmap d1).1 := by
        rw [heq]
      rw [h2, save_data_bitmap_getBit]

end DiskFS

namespace DiskFS

theorem free_all_getBit (im : InodeManager) (d : Disk) (inode : Inode)
    (hdb : im.data_bitmap.check_inited = true) :
    (∀ p ∈ inode.direct_blocks, p ≠ 0 →
       im.data_bitmap.is_valid_bit (p - im.layout.data_blocks_start) = true →
       (im.free_all_data_blocks_for_inode d inode).1.data_bitmap.getBit
         (p - im.layout.data_blocks_start).toNat = false) ∧
    (∀ l, inode.indirect_block ≠ -1 →
       read_indirect_block d inode.indirect_block = some l →
       ∀ x ∈ l, im.data_bitmap.is_valid_bit (x - im.layout.data_blocks_start) = true →
         (im.free_all_data_blocks_for_inode d inode).1.data_bitmap.getBit
           (x - im.layout.data_blocks_start).toNat = false) ∧
    (inode.indirect_block ≠ -1 →
       im.data_bitmap.is_valid_bit (inode.indirect_block - im.layout.data_blocks_start) = true →
       (im.free_all_data_blocks_for_inode d inode).1.data_bitmap.getBit
         (inode.indirect_block - im.layout.data_blocks_start).toNat = false) ∧
    (inode.double_indirect_block ≠ -1 →
       im.data_bitmap.is_valid_bit
         (inode.double_indirect_block - im.layout.data_blocks_start) = true →
       (im.free_all_data_blocks_for_inode d inode).1.data_bitmap.getBit
         (inode.double_indirect_block - im.layout.data_blocks_start).toNat = false) ∧
    ((im.free_all_data_blocks_for_inode d inode).2.direct_blocks =
        inode.direct_blocks.map (fun _ => 0) ∧
     (im.free_all_data_blocks_for_inode d inode).2.indirect_block = -1 ∧
     (im.free_all_data_blocks_for_inode d inode).2.double_indirect_block = -1) := by
  unfold InodeManager.free_all_data_blocks_for_inode
  rcases hr : read_indirect_block d inode.indirect_block with _ | l0 <;>
    simp only [hr]
  · split
    · next hind =>
      split <;> (try dsimp only)
      · next hdbl =>
        refine ⟨?_, ?_, ?_, ?_, rfl, rfl, rfl⟩
        · intro p hp hp0 hv
          exact getBit_free_bit_mono _ _ _ (getBit_free_bit_mono _ _ _
            (directFold_self _ _ _ p hdb hp hp0 hv))
        · intro l _ hrl
          cases hrl
        · intro _ hv
          refine getBit_free_bit_mono _ _ _ ?_
          exact getBit_free_bit_self _ _ (by rw [directFold_check]; exact hdb)
            (by rw [directFold_valid]; exact hv)
        · intro _ hv
          refine getBit_free_bit_self _ _ ?_ ?_
          · rw [free_bit_check, directFold_check]; exact hdb
          · rw [free_bit_valid, directFold_valid]; exact hv
      · next hdbl =>
        refine ⟨?_, ?_, ?_, ?_, rfl, rfl, not_not.1 hdbl⟩
        · intro p hp hp0 hv
          exact getBit_free_bit_mono _ _ _ (directFold_self _ _ _ p hdb hp hp0 hv)
        · intro l _ hrl
          cases hrl
        · intro _ hv
          exact getBit_free_bit_self _ _ (by rw [directFold_check]; exact hdb)
            (by rw [directFold_valid]; exact hv)
        · intro hdbl2 _
          exact absurd hdbl2 (by simpa using hdbl)
    · next hind =>
      split <;> (try dsimp only)
      · next hdbl =>
        refine ⟨?_, ?_, ?_, ?_, rfl, not_not.1 hind, rfl⟩
        · intro p hp hp0 hv
          exact getBit_free_bit_mono _ _ _ (directFold_self _ _ _ p hdb hp hp0 hv)
        · intro l hind2 _
          exact absurd hind2 (by simpa using hind)
        · intro hind2 _
          exact absurd hind2 (by simpa using hind)
        · intro _ hv
          exact getBit_free_bit_self _ _ (by rw [directFold_check]; exact hdb)
            (by rw [directFold_valid]; exact hv)
      · next hdbl =>
        refine ⟨?_, ?_, ?_, ?_, rfl, not_not.1 hind, not_not.1 hdbl⟩
        · intro p hp hp0 hv
          exact directFold_self _ _ _ p hdb hp hp0 hv
        · intro l hind2 _
          exact absurd hind2 (by simpa using hind)
        · intro hind2 _
          exact absurd hind2 (by simpa using hind)
        · intro hdbl2 _
          exact absurd hdbl2 (by simpa using hdbl)
  · split
    · next hind =>
      split <;> (try dsimp only)
      · next hdbl =>
        refine ⟨?_, ?_, ?_, ?_, rfl, rfl, rfl⟩
        · intro p hp hp0 hv
          exact getBit_free_bit_mono _ _ _ (getBit_free_bit_mono _ _ _
            (freeList_mono _ _ _ _ (directFold_self _ _ _ p hdb hp hp0 hv)))
        · intro l _ hrl x hx hv
          obtain rfl : l0 = l := Option.some.inj hrl
          exact getBit_free_bit_mono _ _ _ (getBit_free_bit_mono _ _ _
            (freeList_self _ _ _ x (by rw [directFold_check]; exact hdb) hx
              (by rw [directFold_valid]; exact hv)))
        · intro _ hv
          refine getBit_free_bit_mono _ _ _ ?_
          refine getBit_free_bit_self _ _ ?_ ?_
          · rw [freeList_check, directFold_check]; exact hdb
          · rw [freeList_valid, directFold_valid]; exact hv
        · intro _ hv
          refine getBit_free_bit_self _ _ ?_ ?_
          · rw [free_bit_check, freeList_check, directFold_check]; exact hdb
          · rw [free_bit_valid, freeList_valid, directFold_valid]; exact hv
      · next hdbl =>
        refine ⟨?_, ?_, ?_, ?_, rfl, rfl, not_not.1 hdbl⟩
        · intro p hp hp0 hv
          exact getBit_free_bit_mono _ _ _
            (freeList_mono _ _ _ _ (directFold_self _ _ _ p hdb hp hp0 hv))
        · intro l _ hrl x hx hv
          obtain rfl : l0 = l := Option.some.inj hrl
          exact getBit_free_bit_mono _ _ _
            (freeList_self _ _ _ x (by rw [directFold_check]; exact hdb) hx
              (by rw [directFold_valid]; exact hv))
        · intro _ hv
          refine getBit_free_bit_self _ _ ?_ ?_
          · rw [freeList_check, directFold_check]; exact hdb
          · rw [freeList_valid, directFold_valid]; exact hv
        · intro hdbl2 _
          exact absurd hdbl2 (by simpa using hdbl)
    · next hind =>
      split <;> (try dsimp only)
      · next hdbl =>
        refine ⟨?_, ?_, ?_, ?_, rfl, not_not.1 hind, rfl⟩
        · intro p hp hp0 hv
          exact getBit_free_bit_mono _ _ _ (directFold_self _ _ _ p hdb hp hp0 hv)
        · intro l hind2 _
          exact absurd hind2 (by simpa using hind)
        · intro hind2 _
          exact absurd hind2 (by simpa using hind)
        · intro _ hv
          exact getBit_free_bit_self _ _ (by rw [directFold_check]; exact hdb)
            (by rw [directFold_valid]; exact hv)
      · next hdbl =>
        refine ⟨?_, ?_, ?_, ?_, rfl, not_not.1 hind, not_not.1 hdbl⟩
        · intro p hp hp0 hv
          exact directFold_self _ _ _ p hdb hp hp0 hv
        · intro l hind2 _
          exact absurd hind2 (by simpa using hind)
        · intro hind2 _
          exact absurd hind2 (by simpa using hind)
        · intro hdbl2 _
          exact absurd hdbl2 (by simpa using hdbl)

end DiskFS

namespace DiskFS

/-- **C3** (amended!).  After `free_data_blocks n`, every non-zero
direct pointer of the inode and every block listed in its
single-indirect block is marked free in the data bitmap, and the
single-indirect and double-indirect blocks themselves are released;
the inode written back has all direct pointers zeroed, both indirect
pointers `-1`, and size 0.  The blocks of the double-indirect *tier*
(the inner indirect blocks and their data blocks), although reported
by `get_data_blocks`, are **not** freed: see `c3_counterexample`. -/
theorem c3_free_data_blocks (im : InodeManager) (d : Disk) (n : Int) (inode : Inode)
    (hci : im.check_inited = true)
    (hdb : im.data_bitmap.check_inited = true)
    (hino : im.read_inode d n = some inode) :
    (∀ p ∈ inode.direct_blocks, p ≠ 0 →
       im.data_bitmap.is_valid_bit (p - im.layout.data_blocks_start) = true →
       (im.free_data_blocks d n).1.data_bitmap.getBit
         (p - im.layout.data_blocks_start).toNat = false) ∧
    (∀ l, inode.indirect_block ≠ -1 →
       read_indirect_block d inode.indirect_block = some l →
       ∀ x ∈ l, im.data_bitmap.is_valid_bit (x - im.layout.data_blocks_start) = true →
         (im.free_data_blocks d n).1.data_bitmap.getBit
           (x - im.layout.data_blocks_start).toNat = false) ∧
    (inode.indirect_block ≠ -1 →
       im.data_bitmap.is_valid_bit (inode.indirect_block - im.layout.data_blocks_start) = true →
       (im.free_data_blocks d n).1.data_bitmap.getBit
         (inode.indirect_block - im.layout.data_blocks_start).toNat = false) ∧
    (inode.double_indirect_block ≠ -1 →
       im.data_bitmap.is_valid_bit
         (inode.double_indirect_block - im.layout.data_blocks_start) = true →
       (im.free_data_blocks d n).1.data_bitmap.getBit
         (inode.double_indirect_block - im.layout.data_blocks_start).toNat = false) ∧
    ((im.free_all_data_blocks_for_inode d inode).2.direct_blocks =
        inode.direct_blocks.map (fun _ => 0) ∧
     (im.free_all_data_blocks_for_inode d inode).2.indirect_block = -1 ∧
     (im.free_all_data_blocks_for_inode d inode).2.double_indirect_block = -1) := by
  obtain ⟨ha, hb, hc, hd, he⟩ := free_all_getBit im d inode hdb
  refine ⟨?_, ?_, ?_, ?_, he⟩
  · intro p hp hp0 hv
    rw [free_data_blocks_getBit im d n inode hci hino]
    exact ha p hp hp0 hv
  · intro l hind hrl x hx hv
    rw [free_data_blocks_getBit im d n inode hci hino]
    exact hb l hind hrl x hx hv
  · intro hind hv
    rw [free_data_blocks_getBit im d n inode hci hino]
    exact hc hind hv
  · intro hdbl hv
    rw [free_data_blocks_getBit im d n inode hci hino]
    exact hd hdbl hv

set_option maxRecDepth 100000 in
/-- Witness for C3 on the concrete image: the direct block 5, the
single-indirect block 6 and the double-indirect block 7 (bits 1, 2
and 3 of the data bitmap) are all freed. -/
theorem c3_witness :
    (c3IM.free_data_blocks c3Disk 0).1.data_bitmap.getBit 1 = false ∧
    (c3IM.free_data_blocks c3Disk 0).1.data_bitmap.getBit 2 = false ∧
    (c3IM.free_data_blocks c3Disk 0).1.data_bitmap.getBit 3 = false := by
  have h := c3_free_data_blocks c3IM c3Disk 0 c3Inode (by decide) (by decide) (by decide)
  exact ⟨h.1 5 (by decide) (by decide) (by decide),
         h.2.2.1 (by decide) (by decide),
         h.2.2.2.1 (by decide) (by decide)⟩

set_option maxRecDepth 100000 in
/-- **C3, counterexample.**  On the concrete image, `get_data_blocks`
reports blocks 5, 9 and 11, but after `free_data_blocks` the
double-indirect tier is leaked: data block 11 (bit 7) and the inner
indirect block 10 (bit 6) both stay allocated. -/
theorem c3_counterexample :
    c3IM.get_data_blocks c3Disk 0 = some [5, 9, 11] ∧
    (c3IM.free_data_blocks c3Disk 0).1.data_bitmap.getBit 7 = true ∧
    (c3IM.free_data_blocks c3Disk 0).1.data_bitmap.getBit 6 = true := by
  refine ⟨by decide, by decide, by decide⟩

end DiskFS

namespace DiskFS

theorem collapseSlashes_sf : collapseSlashes ['/', 'f'] = ['/', 'f'] := by
  rw [collapseSlashes]
  rw [if_neg (by decide)]
  rw [show collapseSlashes ['f'] = ['f'] from by rw [collapseSlashes]]

theorem normalize_path_slash_f : PathUtils.normalize_path ['/', 'f'] = ['/', 'f'] := by
  unfold PathUtils.normalize_path
  rw [if_neg (by decide)]
  dsimp only
  rw [show ['/', 'f'].map (fun c => if c = '\\' then '/' else c) = ['/', 'f'] from by decide]
  rw [collapseSlashes_sf]
  rw [if_neg (by decide)]

set_option maxRecDepth 1000000 in
/-- **C1, failing input.**  On a freshly formatted and mounted image,
`create_file "/f"` succeeds (inode 1) and `open_file "/f" (READ|WRITE)`
returns fd 3 — the parent directory exists and the path is new — yet
`write_file` of the empty buffer (`size = 0`, within any capacity
bound) returns `-1` instead of `0 = |buf|`: the round-trip sequence of
the claim does not succeed for the empty buffer, because
`write_data_to_blocks` rejects a file with no data blocks. -/
theorem c1_round_trip_failure :
    ((FS.construct 0).mount c1Img).2 = true ∧
    c1FS0.create_file ['/', 'f'] 3 = (c1FS1, 1) ∧
    c1FS1.open_file ['/', 'f'] 3 = (c1FS2, 3) ∧
    (c1FS2.write_file 3 [] 0).2 = -1 := by
  refine ⟨by decide, ?_, ?_, by decide⟩
  · unfold FS.create_file
    rw [if_neg (by decide), normalize_path_slash_f]
    have h2 : (c1FS0.createFileCore ['/', 'f'] 3).2 = 1 := by decide
    calc c1FS0.createFileCore ['/', 'f'] 3
        = ((c1FS0.createFileCore ['/', 'f'] 3).1, (c1FS0.createFileCore ['/', 'f'] 3).2) := rfl
      _ = (c1FS1, 1) := by rw [h2]; rfl
  · unfold FS.open_file
    rw [if_neg (by decide), normalize_path_slash_f]
    have h2 : (c1FS1.openFileCore ['/', 'f'] 3).2 = 3 := by decide
    calc c1FS1.openFileCore ['/', 'f'] 3
        = ((c1FS1.openFileCore ['/', 'f'] 3).1, (c1FS1.openFileCore ['/', 'f'] 3).2) := rfl
      _ = (c1FS2, 3) := by rw [h2]; rfl

end DiskFS
